import Mathlib

/-!
Verification of the pdfspy extraction engine against its design specification.

The Python sources under `app/` are shallowly embedded: every embedded
definition mirrors one Python function (same name, underscores kept, a
leading underscore dropped).  Python strings are Lean `String`s (processed
as `List Char`), Python dicts are association lists with in-place update
semantics, Python floats are modelled by `Rat`, and library collaborators
(difflib's SequenceMatcher, the optional spaCy pipeline, set iteration
order) are explicit parameters.
-/

namespace PdfSpy

/-! ## Python string primitives -/

/-- Python `\s` (ASCII whitespace as used by `str.strip` and `re.\s`). -/
def pyIsSpace (c : Char) : Bool :=
  c = ' ' || c = '\t' || c = '\n' || c = '\r' || c = Char.ofNat 11 || c = Char.ofNat 12

/-- Python regex `\w` on ASCII input. -/
def isWordChar (c : Char) : Bool :=
  c.isAlpha || c.isDigit || c = '_'

/-- Drop trailing characters satisfying `p` (Python `rstrip`). -/
def dropTrailing (p : Char → Bool) (l : List Char) : List Char :=
  (l.reverse.dropWhile p).reverse

/-- Python `str.strip()` on a character list. -/
def pyStrip (l : List Char) : List Char :=
  dropTrailing pyIsSpace (l.dropWhile pyIsSpace)

/-- Python `sub in hay` (contiguous substring test; `"" in s` is true). -/
def containsSub (hay sub : List Char) : Bool :=
  sub.isPrefixOf hay ||
    match hay with
    | [] => false
    | _ :: t => containsSub t sub

/-- Python `str.lower()` (ASCII). -/
def pyLower (l : List Char) : List Char := l.map Char.toLower

/-- Python `str.upper()` (ASCII). -/
def pyUpper (l : List Char) : List Char := l.map Char.toUpper

/-- Helper for `pyTitle`: `prevAlpha` tells whether the previous character
was alphabetic. -/
def pyTitleGo (prevAlpha : Bool) : List Char → List Char
  | [] => []
  | c :: rest =>
      if c.isAlpha then
        (if prevAlpha then c.toLower else c.toUpper) :: pyTitleGo true rest
      else
        c :: pyTitleGo false rest

/-- Python `str.title()` (ASCII). -/
def pyTitle (l : List Char) : List Char := pyTitleGo false l

/-- Python `str.capitalize()` (ASCII): first char upper, rest lower. -/
def pyCapitalize (l : List Char) : List Char :=
  match l with
  | [] => []
  | c :: rest => c.toUpper :: pyLower rest

/-- Python `str.replace(a, b)` for single characters. -/
def pyReplaceChar (a b : Char) (l : List Char) : List Char :=
  l.map fun c => if c = a then b else c

/-- Python `str.split(sep)` for a single-character separator. -/
def splitOnChar (sep : Char) (l : List Char) : List (List Char) :=
  match l with
  | [] => [[]]
  | c :: rest =>
      let r := splitOnChar sep rest
      if c = sep then [] :: r
      else
        match r with
        | [] => [[c]]
        | h :: t => (c :: h) :: t

/-- Python `str.split(sep, 1)`: split at the first occurrence only;
returns `none` when the separator does not occur. -/
def splitFirst (sep : Char) : List Char → Option (List Char × List Char)
  | [] => none
  | c :: rest =>
      if c = sep then some ([], rest)
      else
        match splitFirst sep rest with
        | none => none
        | some (a, b) => some (c :: a, b)

/-- Python `str.splitlines()` restricted to `\n` separators (the only line
separator occurring in this repository's data). -/
def pySplitLines (l : List Char) : List (List Char) := splitOnChar '\n' l

/-- Python `str.startswith(p)`. -/
def pyStartsWith (l p : List Char) : Bool := p.isPrefixOf l

/-- Python `str.endswith(p)`. -/
def pyEndsWith (l p : List Char) : Bool := p.reverse.isPrefixOf l.reverse

/-- First-seen-order deduplication of a string list (the deterministic part
of Python's `set` construction). -/
def pyDedup (l : List String) : List String :=
  (l.foldl (fun acc s => if acc.contains s then acc else s :: acc) []).reverse

/-! ## Python values

`PyVal` is the JSON-like universe of values that flows through the mapper:
`none` is Python `None`, `num` models Python floats by rationals, and
`dict` is an insertion-ordered association list. -/

inductive PyVal : Type where
  | none : PyVal
  | bool : Bool → PyVal
  | int : Int → PyVal
  | num : Rat → PyVal
  | str : String → PyVal
  | list : List PyVal → PyVal
  | dict : List (String × PyVal) → PyVal

/-- Key list of a dict body, in insertion order. -/
def pyKeys (es : List (String × PyVal)) : List String := es.map Prod.fst

/-- Python dict lookup. -/
def pyLookup (es : List (String × PyVal)) (k : String) : Option PyVal :=
  match es.find? (fun e => e.1 == k) with
  | Option.none => Option.none
  | Option.some e => Option.some e.2

/-- Python dict assignment `d[k] = v`: replaces in place if present,
appends otherwise. -/
def pyInsert (es : List (String × PyVal)) (k : String) (v : PyVal) :
    List (String × PyVal) :=
  match es with
  | [] => [(k, v)]
  | (k0, v0) :: rest =>
      if k0 == k then (k0, v) :: rest else (k0, v0) :: pyInsert rest k v

/-- `d.get(k)` on a `PyVal.dict`, `none` otherwise. -/
def pyGet (v : PyVal) (k : String) : Option PyVal :=
  match v with
  | PyVal.dict es => pyLookup es k
  | _ => Option.none

/-! ## `app/chemical_ner.py`: the CAS registry-number validator -/

/-- Numeric value of an ASCII digit. -/
def digitVal (c : Char) : Nat := c.toNat - 48

/-- The regex `^\d{2,7}-\d{2}-\d$` from `ChemicalNER.validate_cas_number`,
written out structurally (2–7 digits, `-`, 2 digits, `-`, 1 digit). -/
def casFormat (l : List Char) : Bool :=
  let p1 := l.takeWhile Char.isDigit
  let r1 := l.drop p1.length
  decide (2 ≤ p1.length) && decide (p1.length ≤ 7) &&
    match r1 with
    | '-' :: r2 =>
        let p2 := r2.takeWhile Char.isDigit
        p2.length == 2 &&
          (match r2.drop 2 with
           | '-' :: r3 => r3.length == 1 && r3.all Char.isDigit
           | _ => false)
    | _ => false

/-- `ChemicalNER.validate_cas_number`: regex check, then the weighted
check-digit computation `sum(int(d) * (i + 1) for i, d in
enumerate(digits[-2::-1])) % 10`. -/
def validate_cas_number (cas : String) : Bool :=
  if casFormat cas.data then
    let digits := cas.data.filter (fun c => c ≠ '-')
    match digits.reverse with
    | [] => false
    | last :: restRev =>
        digitVal last ==
          ((restRev.enum.map (fun p => digitVal p.2 * (p.1 + 1))).sum % 10)
  else false

/-- The checksum exactly as the spec words it: over the digits with
separators stripped and the last digit removed, sum each digit times its
position counted from the right (rightmost weight 1), mod 10. -/
def specCasChecksum (cas : String) : Nat :=
  let ds := ((cas.data.filter (fun c => c ≠ '-')).dropLast).map digitVal
  (List.zipWith (· * ·) ds.reverse (List.range' 1 ds.length)).sum % 10

/-- The check digit: last digit after separators are stripped. -/
def specCasCheckDigit (cas : String) : Option Nat :=
  match (cas.data.filter (fun c => c ≠ '-')).reverse with
  | [] => Option.none
  | last :: _ => Option.some (digitVal last)

/-! ## `app/hazard_classifier.py`: signal-word determination -/

/-- The fixed DANGER code list from `HazardClassifier.determine_signal_word`. -/
def danger_codes : List String :=
  ["H200", "H201", "H202", "H203", "H204", "H205",
   "H220", "H222", "H224",
   "H240", "H241", "H250", "H260", "H271",
   "H280",
   "H300", "H301", "H310", "H311", "H330", "H331",
   "H314", "H318",
   "H334",
   "H340", "H350", "H360", "H370", "H372",
   "H400", "H410"]

/-- The fixed WARNING code list from `HazardClassifier.determine_signal_word`. -/
def warning_codes : List String :=
  ["H205", "H221", "H223", "H225", "H226", "H227", "H228",
   "H241", "H242", "H251", "H252", "H261", "H270", "H272",
   "H281", "H290",
   "H302", "H303", "H304", "H305", "H312", "H313", "H315", "H316",
   "H317", "H319", "H320", "H332", "H333", "H335", "H336",
   "H341", "H351", "H361", "H362", "H371", "H373",
   "H401", "H402", "H411", "H412", "H413", "H420"]

/-- `HazardClassifier.determine_signal_word`: scan for a DANGER code first,
then for a WARNING code, then default to WARNING for non-empty input and
"None" for empty input. -/
def determine_signal_word (h_codes : List String) : String :=
  if h_codes.any (fun c => danger_codes.contains c) then "DANGER"
  else if h_codes.any (fun c => warning_codes.contains c) then "WARNING"
  else if h_codes.isEmpty then "None"
  else "WARNING"

/-! ## Theorems: CAS validator (claims C3, C10) -/

theorem enumFrom_weight_sum (ds : List Nat) :
    ∀ k, ((ds.enumFrom k).map (fun p => p.2 * (p.1 + 1))).sum =
      (List.zipWith (· * ·) ds (List.range' (k + 1) ds.length)).sum := by
  induction ds with
  | nil => intro k; rfl
  | cons d t ih =>
      intro k
      simp [List.enumFrom, List.range', ih (k + 1)]

theorem enum_weight_sum (ds : List Nat) :
    (ds.enum.map (fun p => p.2 * (p.1 + 1))).sum =
      (List.zipWith (· * ·) ds (List.range' 1 ds.length)).sum := by
  simpa using enumFrom_weight_sum ds 0

theorem checksum_eq (rev : List Char) :
    (rev.enum.map (fun p => digitVal p.2 * (p.1 + 1))).sum =
      (List.zipWith (· * ·) (rev.map digitVal) (List.range' 1 rev.length)).sum := by
  have h := enum_weight_sum (rev.map digitVal)
  rw [List.length_map] at h
  rw [← h, List.enum_map, List.map_map]
  rfl

/-- Claim C3: on inputs of the shape `\d{2,7}-\d{2}-\d`, the validator
accepts exactly when the spec's weighted checksum (digit times position
from the right, rightmost remaining weight 1, mod 10) equals the final
check digit; "7681-52-9" is accepted and "7681-52-0" rejected. -/
theorem c3_cas_checksum :
    (∀ cas : String, casFormat cas.data = true →
      (validate_cas_number cas = true ↔
        specCasCheckDigit cas = some (specCasChecksum cas))) ∧
    validate_cas_number "7681-52-9" = true ∧
    validate_cas_number "7681-52-0" = false := by
  refine ⟨?_, by decide, by decide⟩
  intro cas h
  unfold validate_cas_number specCasCheckDigit specCasChecksum
  simp only [h, if_true]
  cases hrev : (cas.data.filter (fun c => c ≠ '-')).reverse with
  | nil => simp
  | cons last restRev =>
      have hfl : cas.data.filter (fun c => c ≠ '-') = restRev.reverse ++ [last] := by
        have h2 := List.reverse_reverse (cas.data.filter (fun c => c ≠ '-'))
        rw [hrev] at h2
        rw [← h2, List.reverse_cons]
      have hsum : (List.zipWith (· * ·)
            (((cas.data.filter (fun c => c ≠ '-')).dropLast.map digitVal).reverse)
            (List.range' 1
              ((cas.data.filter (fun c => c ≠ '-')).dropLast.map digitVal).length)).sum =
          (restRev.enum.map (fun p => digitVal p.2 * (p.1 + 1))).sum := by
        rw [hfl, List.dropLast_concat, checksum_eq]
        simp [List.map_reverse]
      simp only [beq_iff_eq, Option.some_inj, hsum]

/-- Witness for C3: the format hypothesis holds at "7681-52-9" and the
checksum there matches the check digit. -/
theorem c3_cas_checksum_witness :
    specCasCheckDigit "7681-52-9" = some (specCasChecksum "7681-52-9") :=
  (c3_cas_checksum.1 "7681-52-9" (by decide)).mp (by decide)

/-- The gate as Python actually evaluates it: `re.match(r'^\d{2,7}-\d{2}-\d$',
cas)` — `$` (without `re.MULTILINE`) matches at the end of the string *or*
just before one final newline, so the gate also accepts the strict format
followed by a single trailing `'\n'`. -/
def casFormatPy (l : List Char) : Bool :=
  casFormat l || (l.getLast? == some '\n' && casFormat l.dropLast)

/-- Python `int(d)` on a one-character string: a digit parses to its value,
anything else raises `ValueError`. -/
def pyIntChar (c : Char) : Except String Nat :=
  if c.isDigit then Except.ok (digitVal c) else Except.error "ValueError"

/-- `ChemicalNER.validate_cas_number` with its error path kept: after the
Python-semantics regex gate, `check_digit = int(digits[-1])` and the
per-digit `int(d)` conversions of the weighted sum can raise `ValueError`
(and `digits[-1]` on an empty string would raise `IndexError`), which
happens exactly when the gate accepted a trailing newline. -/
def validate_cas_numberE (cas : String) : Except String Bool :=
  if casFormatPy cas.data then
    let digits := cas.data.filter (fun c => c ≠ '-')
    match digits.reverse with
    | [] => Except.error "IndexError"
    | last :: restRev =>
        match pyIntChar last with
        | Except.error e => Except.error e
        | Except.ok check =>
            if restRev.all Char.isDigit then
              Except.ok (check ==
                ((restRev.enum.map (fun p => digitVal p.2 * (p.1 + 1))).sum % 10))
            else Except.error "ValueError"
  else Except.ok false

theorem casFormat_digits (l : List Char) (h : casFormat l = true) :
    (l.filter (fun c => c ≠ '-')).all Char.isDigit = true ∧
    l.filter (fun c => c ≠ '-') ≠ [] := by
  unfold casFormat at h
  dsimp only at h
  rw [Bool.and_eq_true, Bool.and_eq_true] at h
  obtain ⟨⟨h1, h2⟩, h3⟩ := h
  rw [decide_eq_true_eq] at h1
  split at h3
  case h_2 => exact absurd h3 (by decide)
  case h_1 r2 heq =>
    rw [Bool.and_eq_true] at h3
    obtain ⟨h4, h5⟩ := h3
    rw [beq_iff_eq] at h4
    split at h5
    case h_2 => exact absurd h5 (by decide)
    case h_1 r3 heq2 =>
      rw [Bool.and_eq_true] at h5
      obtain ⟨h6, h7⟩ := h5
      have hA : l.takeWhile Char.isDigit = l.take (l.takeWhile Char.isDigit).length :=
        (List.prefix_iff_eq_take).mp (List.takeWhile_prefix _)
      have hB : r2.takeWhile Char.isDigit = r2.take 2 := by
        have hpre := (List.prefix_iff_eq_take).mp
          (List.takeWhile_prefix _ : r2.takeWhile Char.isDigit <+: r2)
        rwa [h4] at hpre
      have hlsplit : l = l.takeWhile Char.isDigit ++ '-' :: r2 := by
        conv_lhs => rw [← List.take_append_drop (l.takeWhile Char.isDigit).length l]
        rw [← hA, heq]
      have hr2split : r2 = r2.takeWhile Char.isDigit ++ '-' :: r3 := by
        conv_lhs => rw [← List.take_append_drop 2 r2]
        rw [← hB, heq2]
      have hAdig : ∀ c ∈ l.takeWhile Char.isDigit, c.isDigit = true :=
        fun c hc => List.mem_takeWhile_imp hc
      have hBdig : ∀ c ∈ r2.takeWhile Char.isDigit, c.isDigit = true :=
        fun c hc => List.mem_takeWhile_imp hc
      have hr3dig : ∀ c ∈ r3, c.isDigit = true := by
        rw [List.all_eq_true] at h7
        intro c hc
        simpa using h7 c hc
      have hfilter : l.filter (fun c => c ≠ '-') =
          l.takeWhile Char.isDigit ++ r2.takeWhile Char.isDigit ++ r3 := by
        have hkeep : ∀ (xs : List Char), (∀ c ∈ xs, c.isDigit = true) →
            xs.filter (fun c => c ≠ '-') = xs := by
          intro xs hxs
          rw [List.filter_eq_self]
          intro a ha
          have := hxs a ha
          simp only [decide_eq_true_eq]
          intro hcon
          rw [hcon] at this
          exact absurd this (by decide)
        conv_lhs => rw [hlsplit, hr2split]
        simp only [List.filter_append, List.filter_cons]
        rw [hkeep _ hAdig, hkeep _ hBdig, hkeep _ hr3dig]
        simp
      constructor
      · rw [hfilter]
        simp only [List.all_append, Bool.and_eq_true, List.all_eq_true]
        exact ⟨⟨hAdig, hBdig⟩, hr3dig⟩
      · rw [hfilter]
        intro hcon
        have h0 := congrArg List.length hcon
        simp only [List.length_append, List.length_nil] at h0
        omega

/-- **C10, counterexample.** "7681-52-9\n" does not match the claimed
pattern (2–7 digits, hyphen, 2 digits, hyphen, 1 digit), yet the
validator does not return false: Python's `$` lets it through the regex
gate and `int('\n')` then raises ValueError — while the very same digits
without the newline are simply accepted. -/
theorem c10_counterexample :
    casFormat "7681-52-9\n".data = false ∧
    casFormatPy "7681-52-9\n".data = true ∧
    validate_cas_numberE "7681-52-9\n" = Except.error "ValueError" ∧
    validate_cas_numberE "7681-52-9" = Except.ok true := by
  refine ⟨by decide, by decide, rfl, rfl⟩

/-- **C10, amended.** An input rejected by the gate Python actually
applies (strict format, optionally one trailing newline) makes the
validator return false without raising — in particular the separator-free
digit string "7681529" is rejected though its checksum matches; on the
strict format the validator returns the checksum verdict without raising;
but on the gate's newline slack (gate passes, strict format fails) it
raises ValueError instead of returning false. -/
theorem c10_gate_amended :
    (∀ cas : String, casFormatPy cas.data = false →
      validate_cas_numberE cas = Except.ok false) ∧
    (∀ cas : String, casFormat cas.data = true →
      validate_cas_numberE cas = Except.ok (validate_cas_number cas)) ∧
    (∀ cas : String, casFormat cas.data = false → casFormatPy cas.data = true →
      validate_cas_numberE cas = Except.error "ValueError") ∧
    casFormatPy "7681529".data = false ∧
    specCasCheckDigit "7681529" = some (specCasChecksum "7681529") ∧
    validate_cas_numberE "7681529" = Except.ok false := by
  refine ⟨?_, ?_, ?_, by decide, by decide, rfl⟩
  · intro cas h
    unfold validate_cas_numberE
    simp [h]
  · intro cas h
    have hPy : casFormatPy cas.data = true := by
      unfold casFormatPy
      rw [h, Bool.true_or]
    obtain ⟨hall, hne⟩ := casFormat_digits cas.data h
    unfold validate_cas_numberE validate_cas_number
    rw [hPy, h]
    dsimp only
    cases hrev : (cas.data.filter (fun c => c ≠ '-')).reverse with
    | nil => exact absurd (List.reverse_eq_nil_iff.mp hrev) hne
    | cons last restRev =>
        have hlast : last.isDigit = true := by
          rw [List.all_eq_true] at hall
          apply hall
          rw [← List.mem_reverse, hrev]
          exact List.mem_cons_self _ _
        have hrest : restRev.all Char.isDigit = true := by
          rw [List.all_eq_true] at hall ⊢
          intro c hc
          apply hall
          rw [← List.mem_reverse, hrev]
          exact List.mem_cons_of_mem _ hc
        simp only [pyIntChar, hlast, if_true]
        rw [if_pos hrest]
  · intro cas hF hPy
    unfold casFormatPy at hPy
    rw [hF, Bool.false_or, Bool.and_eq_true] at hPy
    obtain ⟨hgl, hdl⟩ := hPy
    rw [beq_iff_eq] at hgl
    have hne : cas.data ≠ [] := by
      intro hcon
      rw [hcon] at hgl
      exact absurd hgl (by decide)
    have hsplit : cas.data = cas.data.dropLast ++ ['\n'] := by
      conv_lhs => rw [← List.dropLast_append_getLast hne]
      rw [List.getLast_eq_iff_getLast?_eq_some hne |>.mpr hgl]
    have hd : (cas.data.filter (fun c => c ≠ '-')).reverse =
        '\n' :: (cas.data.dropLast.filter (fun c => c ≠ '-')).reverse := by
      conv_lhs => rw [hsplit]
      rw [List.filter_append, List.reverse_append]
      simp
    unfold validate_cas_numberE
    rw [show casFormatPy cas.data = true by
      unfold casFormatPy
      rw [hF, Bool.false_or, Bool.and_eq_true, beq_iff_eq]
      exact ⟨hgl, hdl⟩]
    dsimp only
    rw [hd]
    rfl

/-- Witness for the amended C10, at the raising input "7681-52-9\n" and
the gate-rejected input "7681529". -/
theorem c10_gate_amended_witness :
    validate_cas_numberE "7681-52-9\n" = Except.error "ValueError" ∧
    validate_cas_numberE "7681529" = Except.ok false :=
  ⟨c10_gate_amended.2.2.1 "7681-52-9\n" (by decide) (by decide),
   c10_gate_amended.1 "7681529" (by decide)⟩

/-! ## Theorems: signal word (claim C4) -/

theorem any_contains_iff (codes l : List String) :
    codes.any (fun c => l.contains c) = true ↔ ∃ c ∈ codes, c ∈ l := by
  simp [List.any_eq_true]

/-- Claim C4: `determine_signal_word` returns "DANGER" as soon as some code
is in the fixed severe list (regardless of co-occurring WARNING codes),
else "WARNING" when some code is in the moderate list, else "WARNING" for a
non-empty unmatched list, else "None"; in particular
`["H302", "H314"] ↦ "DANGER"`. -/
theorem c4_signal_word :
    (∀ codes : List String, (∃ c ∈ codes, c ∈ danger_codes) →
      determine_signal_word codes = "DANGER") ∧
    (∀ codes : List String, (¬ ∃ c ∈ codes, c ∈ danger_codes) →
      (∃ c ∈ codes, c ∈ warning_codes) →
      determine_signal_word codes = "WARNING") ∧
    (∀ codes : List String, codes ≠ [] → (¬ ∃ c ∈ codes, c ∈ danger_codes) →
      (¬ ∃ c ∈ codes, c ∈ warning_codes) →
      determine_signal_word codes = "WARNING") ∧
    determine_signal_word [] = "None" ∧
    determine_signal_word ["H302", "H314"] = "DANGER" := by
  refine ⟨?_, ?_, ?_, by decide, by decide⟩
  · intro codes hd
    unfold determine_signal_word
    rw [if_pos ((any_contains_iff codes danger_codes).mpr hd)]
  · intro codes hd hw
    unfold determine_signal_word
    rw [if_neg (fun hc => hd ((any_contains_iff codes danger_codes).mp hc)),
      if_pos ((any_contains_iff codes warning_codes).mpr hw)]
  · intro codes hne hd hw
    unfold determine_signal_word
    rw [if_neg (fun hc => hd ((any_contains_iff codes danger_codes).mp hc)),
      if_neg (fun hc => hw ((any_contains_iff codes warning_codes).mp hc)),
      if_neg (by simpa [List.isEmpty_iff] using hne)]

/-- Witness for C4: the DANGER branch fires at the concrete input
`["H302", "H314"]` (H314 is in the severe list). -/
theorem c4_signal_word_witness :
    determine_signal_word ["H302", "H314"] = "DANGER" :=
  c4_signal_word.1 ["H302", "H314"] ⟨"H314", by simp, by decide⟩

/-! ## A small backtracking matcher for the sources' regular expressions

Every regular expression appearing in the Python sources quantifies only
single-character classes, so each quantifier iteration consumes exactly one
character.  `matchSeq` performs Python-`re`-style leftmost backtracking
(greedy quantifiers try long counts first, lazy ones short counts first,
alternatives in source order); `fuel` bounds the recursion depth, which
never exceeds the flattened pattern weight, so a generous fuel makes the
matcher total without changing its meaning. -/

inductive RElem : Type where
  /-- A quantified character class `p{lo,hi}` (`hi = none` means unbounded);
  `lazyQ` selects lazy matching. -/
  | cls (p : Char → Bool) (lo : Nat) (hi : Option Nat) (lazyQ : Bool)
  /-- A literal, case-insensitively if `ci`. -/
  | lit (s : List Char) (ci : Bool)
  /-- Alternation of sub-sequences, tried in order. -/
  | alt (alts : List (List RElem))
  /-- Opening capture-group marker. -/
  | openG
  /-- Closing capture-group marker. -/
  | closeG
  /-- Zero-width assertion on (text, position). -/
  | assertP (p : List Char → Nat → Bool)

mutual

def elemWeight : RElem → Nat
  | RElem.alt alts => 1 + altsWeight alts
  | _ => 1

def altsWeight : List (List RElem) → Nat
  | [] => 0
  | a :: rest => seqWeight a + altsWeight rest

def seqWeight : List RElem → Nat
  | [] => 0
  | e :: rest => elemWeight e + seqWeight rest

end

/-- Case-optional literal prefix test. -/
def litPrefix (ci : Bool) : List Char → List Char → Bool
  | [], _ => true
  | _ :: _, [] => false
  | a :: s, c :: t =>
      (if ci then a.toLower == c.toLower else a == c) && litPrefix ci s t

/-- Length of the run of characters satisfying `p` starting at `pos`,
capped at `hi`. -/
def classRun (p : Char → Bool) (cs : List Char) (pos : Nat) (hi : Option Nat) : Nat :=
  let run := ((cs.drop pos).takeWhile p).length
  match hi with
  | Option.none => run
  | Option.some h => min run h

/-- Backtracking matcher: match the element sequence at `pos`, returning the
end position and the capture-marker positions in traversal order. -/
def matchSeq (cs : List Char) : Nat → List RElem → Nat → Option (Nat × List Nat)
  | 0, _, _ => Option.none
  | _ + 1, [], pos => Option.some (pos, [])
  | fuel + 1, e :: rest, pos =>
      match e with
      | RElem.lit s ci =>
          if litPrefix ci s (cs.drop pos) then
            matchSeq cs fuel rest (pos + s.length)
          else Option.none
      | RElem.assertP p =>
          if p cs pos then matchSeq cs fuel rest pos else Option.none
      | RElem.openG =>
          (matchSeq cs fuel rest pos).map (fun r => (r.1, pos :: r.2))
      | RElem.closeG =>
          (matchSeq cs fuel rest pos).map (fun r => (r.1, pos :: r.2))
      | RElem.alt alts =>
          alts.findSome? (fun a => matchSeq cs fuel (a ++ rest) pos)
      | RElem.cls p lo hi lazyQ =>
          let avail := classRun p cs pos hi
          if avail < lo then Option.none
          else
            let ks := List.range' lo (avail - lo + 1)
            let ks := if lazyQ then ks else ks.reverse
            ks.findSome? (fun k => matchSeq cs fuel rest (pos + k))

/-- Fuel sufficient for any match attempt of `re`. -/
def reFuel (re : List RElem) (cs : List Char) : Nat :=
  (seqWeight re + 1) * (cs.length + 2)

/-- Anchored match attempt at `pos` (Python `re.match` when `pos = 0`). -/
def reMatchAt (re : List RElem) (cs : List Char) (pos : Nat) :
    Option (Nat × List Nat) :=
  matchSeq cs (reFuel re cs) re pos

/-- Scan for the leftmost match starting at or after `pos`
(`fuel` counts the remaining start positions). -/
def searchGo (re : List RElem) (cs : List Char) :
    Nat → Nat → Option (Nat × Nat × List Nat)
  | 0, _ => Option.none
  | f + 1, pos =>
      match reMatchAt re cs pos with
      | Option.some (e, marks) => Option.some (pos, e, marks)
      | Option.none => searchGo re cs f (pos + 1)

/-- Python `re.search`: leftmost match as (start, end, marks). -/
def reSearch (re : List RElem) (cs : List Char) : Option (Nat × Nat × List Nat) :=
  searchGo re cs (cs.length + 1) 0

/-- Python `re.finditer`: non-overlapping leftmost matches; an empty match
advances the scan position by one. -/
def findIterGo (re : List RElem) (cs : List Char) :
    Nat → Nat → List (Nat × Nat × List Nat)
  | 0, _ => []
  | f + 1, pos =>
      if pos > cs.length then []
      else
        match searchGo re cs (cs.length + 1 - pos) pos with
        | Option.none => []
        | Option.some (s, e, marks) =>
            (s, e, marks) :: findIterGo re cs f (if e = s then e + 1 else e)

def reFindIter (re : List RElem) (cs : List Char) : List (Nat × Nat × List Nat) :=
  findIterGo re cs (cs.length + 2) 0

/-- Characters of `cs` in the half-open index interval `[a, b)`. -/
def sliceChars (cs : List Char) (a b : Nat) : List Char :=
  (cs.drop a).take (b - a)

/-- Extract capture group `n` (1-based) from a mark list. -/
def groupSlice (cs : List Char) (marks : List Nat) (n : Nat) : Option (List Char) :=
  match (marks.drop (2 * (n - 1))).take 2 with
  | [a, b] => Option.some (sliceChars cs a b)
  | _ => Option.none

/-! Shorthand for building patterns. -/

def rOne (p : Char → Bool) : RElem := RElem.cls p 1 (some 1) false
def rStar (p : Char → Bool) : RElem := RElem.cls p 0 Option.none false
def rPlus (p : Char → Bool) : RElem := RElem.cls p 1 Option.none false
def rStarL (p : Char → Bool) : RElem := RElem.cls p 0 Option.none true
def rPlusL (p : Char → Bool) : RElem := RElem.cls p 1 Option.none true
def rRep (p : Char → Bool) (lo hi : Nat) : RElem := RElem.cls p lo (some hi) false
def rLit (s : String) : RElem := RElem.lit s.data false
def rLitCI (s : String) : RElem := RElem.lit s.data true

/-- Is the character at `pos` a word character? -/
def isWordAt (cs : List Char) (pos : Nat) : Bool :=
  match cs.get? pos with
  | Option.some c => isWordChar c
  | Option.none => false

/-- `\b`: word boundary. -/
def rWordB : RElem :=
  RElem.assertP fun cs pos =>
    (if pos = 0 then false else isWordAt cs (pos - 1)) != isWordAt cs pos

/-- `^` with `re.MULTILINE`. -/
def rBolM : RElem :=
  RElem.assertP fun cs pos => pos == 0 || cs.get? (pos - 1) == some '\n'

/-- `$` with `re.MULTILINE`. -/
def rEolM : RElem :=
  RElem.assertP fun cs pos => pos == cs.length || cs.get? pos == some '\n'

/-- `^` without `re.MULTILINE` (used on single lines). -/
def rBol : RElem := RElem.assertP fun _ pos => pos == 0

/-- `$` without `re.MULTILINE` on newline-free lines. -/
def rEol : RElem := RElem.assertP fun cs pos => pos == cs.length

/-- The lookahead `(?=\n|$|\t)` under `re.MULTILINE`. -/
def rLookNlTabEnd : RElem :=
  RElem.assertP fun cs pos =>
    cs.get? pos == some '\n' || cs.get? pos == some '\t' || pos == cs.length

/-! ## `app/parse_ts_interface.py` -/

/-- One rewrite step of `re.sub(r'([a-z])([A-Z])', sep-insertion, s)`:
insert `sep` between a lowercase letter and an uppercase letter, scanning
left to right without overlap. -/
def camelSub (sep : Char) : List Char → List Char
  | [] => []
  | [c] => [c]
  | x :: y :: rest =>
      if x.isLower && y.isUpper then x :: sep :: y :: camelSub sep rest
      else x :: camelSub sep (y :: rest)

/-- The fixed `semantic_map` of `_generate_search_terms`, in source order. -/
def semantic_map : List (String × List String) :=
  [("productname", ["product name", "product", "name", "title", "product title"]),
   ("name", ["product name", "product", "title", "identifier", "designation"]),
   ("manufacturer", ["supplier", "company", "producer", "vendor", "distributor"]),
   ("version", ["revision", "ver", "version number", "rev"]),
   ("cas", ["cas number", "cas no", "cas-no", "cas registry number"]),
   ("component", ["substance", "ingredient", "chemical", "material", "compound"]),
   ("substance", ["component", "ingredient", "chemical", "material"]),
   ("reach_registration_number", ["reach no", "reach number", "reach reg", "ec number"]),
   ("hazard", ["danger", "warning", "safety", "risk"]),
   ("signalword", ["signal word", "signal", "warning word"]),
   ("hazardstatements", ["hazard statements", "h-statements", "h statements", "dangers"]),
   ("percentage", ["percent", "%", "concentration", "weight", "content"]),
   ("weight", ["mass", "amount", "quantity", "percentage", "%"]),
   ("concentration", ["content", "percentage", "amount", "%"])]

/-- Final deduplication loop of `_generate_search_terms`: strip each term,
drop empties, keep the first occurrence of each cleaned term. -/
def dedupStripTerms (l : List String) : List String :=
  (l.foldl
    (fun (st : List String × List String) term =>
      let tc := String.mk (pyStrip term.data)
      if tc ≠ "" && !st.1.contains tc then (tc :: st.1, tc :: st.2) else st)
    ([], [])).2.reverse

/-- `_generate_search_terms`. -/
def generate_search_terms (fieldName : String) : List String :=
  let fn := fieldName.data
  let readable := camelSub ' ' fn
  let terms1 :=
    [fieldName] ++
      (if readable ≠ fn then
        [String.mk readable, String.mk (pyLower readable),
         String.mk (pyUpper readable), String.mk (pyTitle readable)]
      else [])
  let terms2 := terms1 ++
    [String.mk (pyLower fn), String.mk (pyUpper fn),
     String.mk (pyReplaceChar '_' ' ' fn), String.mk (pyReplaceChar '-' ' ' fn),
     String.mk (pyLower (camelSub '-' fn)), String.mk (pyLower (camelSub '_' fn))]
  let fieldLower := pyLower fn
  let terms3 := semantic_map.foldl
    (fun acc kv =>
      if containsSub fieldLower kv.1.data || containsSub kv.1.data fieldLower then
        acc ++ kv.2
      else acc)
    terms2
  dedupStripTerms terms3

/-- `_get_field_priority`. -/
def get_field_priority (fieldName : String) : Int :=
  let fl := pyLower fieldName.data
  if ["name", "product", "manufacturer", "supplier"].any
      (fun t => containsSub fl t.data) then 3
  else if ["cas", "component", "substance", "hazard", "version"].any
      (fun t => containsSub fl t.data) then 2
  else 1

/-- `_normalize_type`. -/
def normalize_type (typeStr : String) : String :=
  let ts := String.mk (pyStrip typeStr.data)
  if pyEndsWith ts.data "[]".data then "array"
  else if ts = "string" || ts = "String" then "string"
  else if ts = "number" || ts = "Number" then "number"
  else if ts = "boolean" || ts = "Boolean" then "boolean"
  else "string"

/-- The anchored regex `\w+:\s*{\s*$` classifying nested-object openers. -/
def matchesObjOpen (l : List Char) : Bool :=
  let w := l.takeWhile isWordChar
  let r1 := l.drop w.length
  decide (0 < w.length) &&
    match r1 with
    | ':' :: r2 =>
        (match r2.dropWhile pyIsSpace with
         | c :: r4 => c = Char.ofNat 123 && (r4.dropWhile pyIsSpace).isEmpty
         | [] => false)
    | _ => false

/-- The five ways `parse_ts_interface` treats one (stripped) line. -/
inductive LineKind : Type where
  | skip
  | objOpen (key : String)
  | closeArr
  | close
  | field (key valType : String)

/-- Classify one raw line exactly as the if/elif chain of
`parse_ts_interface` does (strip, drop trailing semicolons, then test the
branches in source order). -/
def classifyLine (raw : List Char) : LineKind :=
  let line := dropTrailing (fun c => c = ';') (pyStrip raw)
  if line.isEmpty || pyStartsWith line "interface ".data then LineKind.skip
  else if matchesObjOpen line then
    LineKind.objOpen (String.mk (pyStrip (splitOnChar ':' line).headI))
  else if line = "\x7d[]".data then LineKind.closeArr
  else if line = "\x7d".data then LineKind.close
  else if line.contains ':' then
    match splitFirst ':' line with
    | Option.some (k, v) =>
        LineKind.field (String.mk (pyStrip k)) (String.mk (pyStrip v))
    | Option.none => LineKind.skip
  else LineKind.skip

/-- Mutable-parser state: `current` is the dict being filled, `stack` holds
the enclosing dicts together with the key under which the open child will
sit (Python mutates the child in place through an alias; re-inserting the
finished child at pop time is the functional equivalent). -/
structure PState : Type where
  current : List (String × PyVal)
  stack : List (List (String × PyVal) × String)

/-- The field-info dict built for a `name: type` line. -/
def fieldInfoDict (key valType : String) : PyVal :=
  PyVal.dict
    [("_field_name", PyVal.str key),
     ("_type", PyVal.str (normalize_type valType)),
     ("_original_type", PyVal.str valType),
     ("_search_terms", PyVal.list ((generate_search_terms key).map PyVal.str)),
     ("_priority", PyVal.int (get_field_priority key))]

/-- The metadata entries a nested-object opener starts with. -/
def newObjEntries (key : String) : List (String × PyVal) :=
  [("_field_name", PyVal.str key),
   ("_type", PyVal.str "object"),
   ("_search_terms", PyVal.list ((generate_search_terms key).map PyVal.str))]

/-- One loop iteration of `parse_ts_interface`.  The unguarded
`schema_stack.pop()` in the `}[]` branch is the one place the Python parser
can raise (`IndexError`); the plain `}` branch is guarded by
`if schema_stack:`. -/
def processLine (st : PState) (raw : List Char) : Except String PState :=
  match classifyLine raw with
  | LineKind.skip => Except.ok st
  | LineKind.objOpen key =>
      Except.ok ⟨newObjEntries key, (st.current, key) :: st.stack⟩
  | LineKind.closeArr =>
      match st.stack with
      | [] => Except.error "IndexError: pop from empty list"
      | (parent, key) :: s =>
          let closed := pyInsert st.current "_type" (PyVal.str "array_of_objects")
          Except.ok ⟨pyInsert parent key (PyVal.dict closed), s⟩
  | LineKind.close =>
      match st.stack with
      | [] => Except.ok st
      | (parent, key) :: s => Except.ok ⟨pyInsert parent key (PyVal.dict st.current), s⟩
  | LineKind.field key valType =>
      Except.ok ⟨pyInsert st.current key (fieldInfoDict key valType), st.stack⟩

/-- Run the parser loop over the remaining lines. -/
def runLines : PState → List (List Char) → Except String PState
  | st, [] => Except.ok st
  | st, l :: rest =>
      match processLine st l with
      | Except.error e => Except.error e
      | Except.ok st2 => runLines st2 rest

/-- Close any still-open scopes to recover the root dict (Python returns
`root`, whose contents are visible through the alias chain). -/
def finalizeState (cur : List (String × PyVal)) :
    List (List (String × PyVal) × String) → List (String × PyVal)
  | [] => cur
  | (parent, key) :: s => finalizeState (pyInsert parent key (PyVal.dict cur)) s

/-- `parse_ts_interface` (raising modelled by `Except.error`). -/
def parse_ts_interface (tsCode : String) : Except String PyVal :=
  match runLines ⟨[], []⟩ (pySplitLines tsCode.data) with
  | Except.error e => Except.error e
  | Except.ok st => Except.ok (PyVal.dict (finalizeState st.current st.stack))

/-- Depth-tracking scan: does some `}[]` line get processed while no scope
is open?  (That is exactly the situation in which `parse_ts_interface`
raises.) -/
def strayGo (depth : Nat) : List (List Char) → Bool
  | [] => false
  | l :: rest =>
      match classifyLine l with
      | LineKind.objOpen _ => strayGo (depth + 1) rest
      | LineKind.closeArr => if depth = 0 then true else strayGo (depth - 1) rest
      | LineKind.close => strayGo (depth - 1) rest
      | _ => strayGo depth rest

/-- A stray `}[]` with no open scope somewhere in the input. -/
def hasStrayArrayClose (tsCode : String) : Bool :=
  strayGo 0 (pySplitLines tsCode.data)

/-- Follow a key path through nested dicts. -/
def getPath (v : PyVal) (ks : List String) : Option PyVal :=
  ks.foldl (fun acc k => acc.bind (fun w => pyGet w k)) (Option.some v)

/-! ## Theorems: parser robustness (claim C2) -/

theorem runLines_isOk (lines : List (List Char)) :
    ∀ st : PState, (runLines st lines).isOk = !(strayGo st.stack.length lines) := by
  induction lines with
  | nil => intro st; rfl
  | cons l rest ih =>
      intro st
      cases h : classifyLine l with
      | skip => simpa [runLines, processLine, h, strayGo] using ih st
      | objOpen key =>
          simpa [runLines, processLine, h, strayGo] using
            ih ⟨newObjEntries key, (st.current, key) :: st.stack⟩
      | closeArr =>
          cases hst : st.stack with
          | nil => simp [runLines, processLine, h, strayGo, hst, Except.isOk, Except.toBool]
          | cons p s =>
              simpa [runLines, processLine, h, strayGo, hst] using
                ih ⟨pyInsert p.1 p.2
                  (PyVal.dict (pyInsert st.current "_type"
                    (PyVal.str "array_of_objects"))), s⟩
      | close =>
          cases hst : st.stack with
          | nil => simpa [runLines, processLine, h, strayGo, hst] using ih st
          | cons p s =>
              simpa [runLines, processLine, h, strayGo, hst] using
                ih ⟨pyInsert p.1 p.2 (PyVal.dict st.current), s⟩
      | field key valType =>
          simpa [runLines, processLine, h, strayGo] using
            ih ⟨pyInsert st.current key (fieldInfoDict key valType), st.stack⟩

/-- Counterexample for C2 as stated: the single stray line `}[]` makes the
parser hit the unguarded `schema_stack.pop()` and raise (here:
`Except.error`), so parsing does not "never raise". -/
theorem c2_counterexample : (parse_ts_interface "\x7d[]").isOk = false := by
  rfl

/-- Amended C2: the parser raises exactly when some `}[]` line is processed
with no open scope; in every other case — including lines with no colon and
stray plain `}` lines — it returns a (partial) schema.  The conjuncts show
the exact characterization and that a stray plain `}` alone is harmless. -/
theorem c2_no_throw_amended :
    (∀ tsCode : String,
      (parse_ts_interface tsCode).isOk = !(hasStrayArrayClose tsCode)) ∧
    (parse_ts_interface "\x7d").isOk = true ∧
    (parse_ts_interface "garbage line without colon\n\x7d\nx: string").isOk = true := by
  refine ⟨?_, rfl, rfl⟩
  intro tsCode
  have h := runLines_isOk (pySplitLines tsCode.data) ⟨[], []⟩
  unfold parse_ts_interface hasStrayArrayClose
  cases hr : runLines ⟨[], []⟩ (pySplitLines tsCode.data) with
  | error e =>
      rw [hr] at h
      simp only [Except.isOk, Except.toBool] at h ⊢
      exact h
  | ok st =>
      rw [hr] at h
      simp only [Except.isOk, Except.toBool] at h ⊢
      exact h

/-! ## Theorems: `}[]` versus `}` (claim C7) -/

/-- Claim C7: with an open scope, a line that is exactly `}[]` pops the
scope and retags the just-closed node's `_type` as "array_of_objects",
while a plain `}` pops without retagging; concretely, a block closed by
`}[]` parses to `_type = "array_of_objects"`, the same block closed by `}`
stays `"object"`, and a `[]`-suffixed leaf type elsewhere yields `"array"`,
never `"array_of_objects"`. -/
theorem c7_array_close_retag :
    (∀ (cur parent : List (String × PyVal)) (key : String)
        (s : List (List (String × PyVal) × String)),
      processLine ⟨cur, (parent, key) :: s⟩ "\x7d[]".data =
        Except.ok ⟨pyInsert parent key
          (PyVal.dict (pyInsert cur "_type" (PyVal.str "array_of_objects"))), s⟩) ∧
    (∀ (cur parent : List (String × PyVal)) (key : String)
        (s : List (List (String × PyVal) × String)),
      processLine ⟨cur, (parent, key) :: s⟩ "\x7d".data =
        Except.ok ⟨pyInsert parent key (PyVal.dict cur), s⟩) ∧
    ((parse_ts_interface
        "interface T \x7b\n  substances: \x7b\n    name: string\n  \x7d[];\n  b: string[];\n\x7d").toOption.bind
      (fun r => getPath r ["substances", "_type"])) =
        some (PyVal.str "array_of_objects") ∧
    ((parse_ts_interface
        "interface T \x7b\n  substances: \x7b\n    name: string\n  \x7d;\n  b: string[];\n\x7d").toOption.bind
      (fun r => getPath r ["substances", "_type"])) = some (PyVal.str "object") ∧
    ((parse_ts_interface
        "interface T \x7b\n  substances: \x7b\n    name: string\n  \x7d;\n  b: string[];\n\x7d").toOption.bind
      (fun r => getPath r ["b", "_type"])) = some (PyVal.str "array") := by
  exact ⟨fun cur parent key s => rfl, fun cur parent key s => rfl, rfl, rfl, rfl⟩

/-! ## `app/extractors.py` -/

/-- `[^\n]`. -/
def notNl (c : Char) : Bool := c ≠ '\n'

/-- `[:\s]`. -/
def colonOrSpace (c : Char) : Bool := c = ':' || pyIsSpace c

/-- `[A-Za-z\s\-,\(\)]`. -/
def chemNameChar (c : Char) : Bool :=
  c.isAlpha || pyIsSpace c || c = '-' || c = ',' || c = '(' || c = ')'

/-- `[\d\.\-–\s%]`. -/
def weightChar (c : Char) : Bool :=
  c.isDigit || c = '.' || c = '-' || c = '–' || pyIsSpace c || c = '%'

/-- `[\d\-\.%\s]`. -/
def weightLineChar (c : Char) : Bool :=
  c.isDigit || c = '-' || c = '.' || c = '%' || pyIsSpace c

/-- The three patterns of `extract_product_name`:
`Product Name[:\s]+([^\n]+)` etc., `re.IGNORECASE`. -/
def prodNamePattern (lead : String) : List RElem :=
  [rLitCI lead, rPlus colonOrSpace, RElem.openG, rPlus notNl, RElem.closeG]

def optToPy : Option String → PyVal
  | Option.none => PyVal.none
  | Option.some s => PyVal.str s

/-- `extract_product_name`. -/
def extract_product_name (text : String) : Option String :=
  let cs := text.data
  ["Product Name", "Product", "Trade Name"].findSome? fun lead =>
    (reSearch (prodNamePattern lead) cs).bind fun t =>
      (groupSlice cs t.2.2 1).map fun g => String.mk (pyStrip g)

/-- `Signal word[:\s]+(Danger|Warning)`, `re.IGNORECASE`. -/
def signalWordPattern : List RElem :=
  [rLitCI "Signal word", rPlus colonOrSpace, RElem.openG,
   RElem.alt [[rLitCI "Danger"], [rLitCI "Warning"]], RElem.closeG]

/-- `extract_signal_word` (the match is `.capitalize()`d). -/
def extract_signal_word (text : String) : Option String :=
  let cs := text.data
  (reSearch signalWordPattern cs).bind fun t =>
    (groupSlice cs t.2.2 1).map fun g => String.mk (pyCapitalize g)

/-- A hazard-statement pattern `(Lead\s+[^\n]+)`, `re.IGNORECASE`. -/
def hazardPattern (lead : String) : List RElem :=
  [RElem.openG, rLitCI lead, rPlus pyIsSpace, rPlus notNl, RElem.closeG]

/-- `extract_hazard_statements`: `findall` each of the five patterns, strip,
keep statements longer than 10 characters not ending in ", ". -/
def extract_hazard_statements (text : String) : List String :=
  let cs := text.data
  ["Causes", "May cause", "Fatal if", "Harmful if", "Toxic if"].foldl
    (fun acc lead =>
      acc ++
        ((reFindIter (hazardPattern lead) cs).filterMap fun t =>
          (groupSlice cs t.2.2 1).bind fun g =>
            let st := pyStrip g
            if decide (10 < st.length) && !pyEndsWith st ", ".data then
              some (String.mk st)
            else Option.none))
    []

/-- The section regex of `extract_ingredient_data`:
`3\.\s*Composition.*?3\.1\s*Substances(.*?)(?:3\.2|4\.)` with
`re.DOTALL | re.IGNORECASE`. -/
def compositionSectionPattern : List RElem :=
  [rLit "3", rLit ".", rStar pyIsSpace, rLitCI "Composition",
   RElem.cls (fun _ => true) 0 Option.none true,
   rLit "3", rLit ".", rLit "1", rStar pyIsSpace, rLitCI "Substances",
   RElem.openG, RElem.cls (fun _ => true) 0 Option.none true, RElem.closeG,
   RElem.alt [[rLit "3.2"], [rLit "4."]]]

/-- `_is_chemical_name`: full match of `^[A-Za-z][A-Za-z\s\-,\(\)]*$` and
length above 3. -/
def is_chemical_name (line : List Char) : Bool :=
  match line with
  | [] => false
  | c :: rest => c.isAlpha && rest.all chemNameChar && decide (3 < line.length)

/-- Full match of `^\d{3}-\d{3}-\d{1}$` (EC-number shape). -/
def fullEcFormat (l : List Char) : Bool :=
  (l.takeWhile Char.isDigit).length == 3 &&
    match l.drop 3 with
    | '-' :: r =>
        (r.takeWhile Char.isDigit).length == 3 &&
          (match r.drop 3 with
           | '-' :: r2 => r2.length == 1 && r2.all Char.isDigit
           | _ => false)
    | _ => false

/-- Full match of `^\d{2,4}-\d{2}-\d{1}$` (CAS shape in `extractors.py`). -/
def casFormat24 (l : List Char) : Bool :=
  let p1 := l.takeWhile Char.isDigit
  decide (2 ≤ p1.length) && decide (p1.length ≤ 4) &&
    match l.drop p1.length with
    | '-' :: r2 =>
        (r2.takeWhile Char.isDigit).length == 2 &&
          (match r2.drop 2 with
           | '-' :: r3 => r3.length == 1 && r3.all Char.isDigit
           | _ => false)
    | _ => false

/-- Prefix match of `^\d{2}-\d{10}-\d{2}-\w*` (REACH registration shape). -/
def reachPrefixFormat (l : List Char) : Bool :=
  (l.takeWhile Char.isDigit).length == 2 &&
    match l.drop 2 with
    | '-' :: r =>
        (r.takeWhile Char.isDigit).length == 10 &&
          (match r.drop 10 with
           | '-' :: r2 =>
               (r2.takeWhile Char.isDigit).length == 2 &&
                 (match r2.drop 2 with
                  | '-' :: _ => true
                  | _ => false)
           | _ => false)
    | _ => false

/-- `_is_continuation_line`. -/
def is_continuation_line (nextLine : List Char) (cleanLines : List (List Char))
    (currentIndex : Nat) : Bool :=
  if !is_chemical_name nextLine ||
      (match nextLine with | c :: _ => c.isDigit | [] => false) then false
  else if currentIndex + 2 < cleanLines.length then
    fullEcFormat (cleanLines.getD (currentIndex + 2) [])
  else false

/-- Loop body of `_extract_ingredient_identifiers` over
`j ∈ [start+1, min(start+15, len))` with early break, carrying
(ec, cas, weight, reach). -/
def identifiersGo (clean : List (List Char)) (stopJ : Nat) :
    Nat → Nat →
      Option (List Char) × Option (List Char) × Option (List Char) × Option (List Char) →
      Option (List Char) × Option (List Char) × Option (List Char) × Option (List Char)
  | 0, _, st => st
  | f + 1, j, st =>
      if j < stopJ then
        let line := clean.getD j []
        let (ec, cas, weight, reach) := st
        if fullEcFormat line then
          identifiersGo clean stopJ f (j + 1) (some line, cas, weight, reach)
        else if casFormat24 line then
          identifiersGo clean stopJ f (j + 1) (ec, some line, weight, reach)
        else if (!line.isEmpty && line.all weightLineChar) && line.any Char.isDigit then
          let weight2 :=
            if weight.isNone && decide (line.length < 20) then some line else weight
          identifiersGo clean stopJ f (j + 1) (ec, cas, weight2, reach)
        else if reachPrefixFormat line then
          identifiersGo clean stopJ f (j + 1) (ec, cas, weight, some line)
        else if is_chemical_name line && decide (10 < line.length) &&
            !(["classified", "not", "danger", "warning"].any
                (fun t => containsSub (pyLower line) t.data)) then
          (ec, cas, weight, reach)
        else identifiersGo clean stopJ f (j + 1) (ec, cas, weight, reach)
      else st

def pyOptStr : Option (List Char) → PyVal
  | Option.none => PyVal.none
  | Option.some l => PyVal.str (String.mk l)

/-- `_extract_ingredient_identifiers`: scan ahead for EC/CAS/weight/REACH
lines; return the ingredient dict only when a CAS number was found. -/
def extract_ingredient_identifiers (clean : List (List Char)) (startIndex : Nat)
    (componentName : List Char) : Option PyVal :=
  let stopJ := min (startIndex + 15) clean.length
  let st := identifiersGo clean stopJ (clean.length + 1) (startIndex + 1)
    (Option.none, Option.none, Option.none, Option.none)
  let (ec, cas, weight, reach) := st
  if !componentName.isEmpty && !cas.isNone then
    some (PyVal.dict
      [("component", PyVal.str (String.mk componentName)),
       ("ec_number", pyOptStr ec),
       ("cas_number", pyOptStr cas),
       ("weight_percent", pyOptStr weight),
       ("reach_number", pyOptStr reach)])
  else Option.none

/-- The line filter at the top of `_extract_structured_ingredients`. -/
def structuredExcluded : List String :=
  ["component", "ec-no.", "cas-no", "weight", "range",
   "classification", "reach", "registration", "number", "-", "%"]

/-- Main scan loop of `_extract_structured_ingredients` (the `while` loop,
index-advancing; a consumed continuation line advances the index an extra
step, exactly like the Python `i += 1` inside the loop body). -/
def structuredGo (clean : List (List Char)) : Nat → Nat → List PyVal
  | 0, _ => []
  | f + 1, i =>
      if i < clean.length then
        let line := clean.getD i []
        if is_chemical_name line then
          let hasCont :=
            i + 1 < clean.length &&
              is_continuation_line (clean.getD (i + 1) []) clean i
          let componentName :=
            if hasCont then line ++ ' ' :: clean.getD (i + 1) [] else line
          let i2 := if hasCont then i + 1 else i
          match extract_ingredient_identifiers clean i2 componentName with
          | Option.some d => d :: structuredGo clean f (i2 + 1)
          | Option.none => structuredGo clean f (i2 + 1)
        else structuredGo clean f (i + 1)
      else []

/-- `_extract_structured_ingredients`. -/
def extract_structured_ingredients (tableSection : List Char) : List PyVal :=
  let clean := ((pySplitLines tableSection).map pyStrip).filter fun l =>
    !l.isEmpty && !(structuredExcluded.map String.data).contains (pyLower l)
  structuredGo clean (clean.length + 1) 0

/-- Collapse `\s+` runs into single spaces (`re.sub(r'\s+', ' ', s)`). -/
def squashWsGo (inWs : Bool) : List Char → List Char
  | [] => []
  | c :: rest =>
      if pyIsSpace c then
        if inWs then squashWsGo true rest else ' ' :: squashWsGo true rest
      else c :: squashWsGo false rest

def squashWs (l : List Char) : List Char := squashWsGo false l

/-- The fallback regex of `_extract_pattern_ingredients`:
`([A-Za-z][A-Za-z\s\-,\(\)]+?)\s+(\d{3,5}-\d{2}-\d{1})\s+([\d\.\-–\s%]+)`. -/
def patternIngredientsRe : List RElem :=
  [RElem.openG, rOne Char.isAlpha, rPlusL chemNameChar, RElem.closeG,
   rPlus pyIsSpace,
   RElem.openG, rRep Char.isDigit 3 5, rLit "-", rRep Char.isDigit 2 2,
   rLit "-", rRep Char.isDigit 1 1, RElem.closeG,
   rPlus pyIsSpace,
   RElem.openG, rPlus weightChar, RElem.closeG]

def unwantedKeywords : List String :=
  ["PERSONAL PROTECTION", "Control parameters", "Exposure Guidelines",
   "ACGIH TLV", "OSHA PEL", "NIOSH IDLH", "Inhalation",
   "IARC", "NTP", "CWA", "Reportable", "Quantities", "Toxic Pollutants"]

/-- `_extract_pattern_ingredients`. -/
def extract_pattern_ingredients (cs : List Char) : List PyVal :=
  (reFindIter patternIngredientsRe cs).filterMap fun t =>
    let g1 := (groupSlice cs t.2.2 1).getD []
    let g2 := (groupSlice cs t.2.2 2).getD []
    let g3 := (groupSlice cs t.2.2 3).getD []
    let chemical := squashWs (pyStrip g1)
    let weight := pyStrip g3
    if unwantedKeywords.any
        (fun kw => containsSub (pyLower chemical) (pyLower kw.data)) then
      Option.none
    else if !weight.isEmpty && weight ≠ "-".data then
      some (PyVal.dict
        [("component", PyVal.str (String.mk chemical)),
         ("cas_number", PyVal.str (String.mk g2)),
         ("weight_percent", PyVal.str (String.mk weight))])
    else Option.none

/-- `extract_ingredient_data`: isolate the composition section when the
section regex matches, try structured extraction, fall back to the pattern
scan over the whole text. -/
def extract_ingredient_data (text : String) : List PyVal :=
  let cs := text.data
  let tableSection :=
    match reSearch compositionSectionPattern cs with
    | Option.some t => (groupSlice cs t.2.2 1).getD cs
    | Option.none => cs
  let ingredients := extract_structured_ingredients tableSection
  if ingredients.isEmpty then extract_pattern_ingredients cs else ingredients

/-! ## `app/mappers.py` -/

/-- `_determine_extraction_strategy`: chemical indicators first, then
hazard indicators, else "unknown". -/
def determine_extraction_strategy (fieldNames : List String) : String :=
  let fls := fieldNames.map fun n => pyLower n.data
  let hasChem := fls.any fun f =>
    ["component", "chemical", "substance", "cas", "reach", "ec"].any
      fun ind => containsSub f ind.data
  let hasHaz := fls.any fun f =>
    ["hazard", "statement", "warning", "danger"].any
      fun ind => containsSub f ind.data
  if hasChem then "ingredients" else if hasHaz then "hazards" else "unknown"

/-- `dict.get(key, '')`: present keys return their value (even `None`),
absent keys return the empty string. -/
def pyGetOrEmpty (v : PyVal) (k : String) : PyVal :=
  match pyGet v k with
  | Option.some x => x
  | Option.none => PyVal.str ""

/-- `_map_ingredient_field`. -/
def map_ingredient_field (fieldName : String) (ingredientData : PyVal) : PyVal :=
  let fl := pyLower fieldName.data
  if ["component", "name", "substance", "chemical"].any
      (fun t => containsSub fl t.data) then
    pyGetOrEmpty ingredientData "component"
  else if containsSub fl "cas".data then pyGetOrEmpty ingredientData "cas_number"
  else if containsSub fl "reach".data then pyGetOrEmpty ingredientData "reach_number"
  else if ["weight", "percent", "concentration"].any
      (fun t => containsSub fl t.data) then
    pyGetOrEmpty ingredientData "weight_percent"
  else if containsSub fl "ec".data then pyGetOrEmpty ingredientData "ec_number"
  else if ["classification", "class"].any (fun t => containsSub fl t.data) then
    pyGetOrEmpty ingredientData "classification"
  else PyVal.none

/-- `_map_ingredients_to_schema`: one result object per ingredient, with
exactly the item schema's keys. -/
def map_ingredients_to_schema (ingredients : List PyVal)
    (schemaItem : List (String × PyVal)) : PyVal :=
  if ingredients.isEmpty then PyVal.list []
  else
    PyVal.list (ingredients.map fun ing =>
      PyVal.dict (schemaItem.map fun kv => (kv.1, map_ingredient_field kv.1 ing)))

/-- `_map_hazards_to_schema`: the statements are returned as-is (a flat
list of strings, not objects). -/
def map_hazards_to_schema (hazardStatements : List String) : PyVal :=
  PyVal.list (hazardStatements.map PyVal.str)

/-- `_map_primitive_schema`: string leaves route on their text, everything
else (and every unmatched leaf) yields `None`. -/
def map_primitive_schema (schemaValue : PyVal) (text : String) : PyVal :=
  match schemaValue with
  | PyVal.str s =>
      let kl := pyLower s.data
      if containsSub kl "productname".data then optToPy (extract_product_name text)
      else if containsSub kl "signalword".data then
        optToPy (extract_signal_word text)
      else if containsSub kl "hazardstatement".data then
        PyVal.list ((extract_hazard_statements text).map PyVal.str)
      else PyVal.none
  | _ => PyVal.none

/-- `_map_array_schema`. -/
def map_array_schema (xs : List PyVal) (text : String) : PyVal :=
  match xs with
  | [] => PyVal.list []
  | itemSchema :: _ =>
      match itemSchema with
      | PyVal.dict entries =>
          let strat := determine_extraction_strategy (pyKeys entries)
          if strat = "ingredients" then
            map_ingredients_to_schema (extract_ingredient_data text) entries
          else if strat = "hazards" then
            map_hazards_to_schema (extract_hazard_statements text)
          else PyVal.list []
      | _ => PyVal.list []

mutual

/-- `map_schema_to_data`. -/
def map_schema_to_data (schema : PyVal) (text : String) : PyVal :=
  match schema with
  | PyVal.dict es => PyVal.dict (mapObjectEntries es text)
  | PyVal.list xs => map_array_schema xs text
  | v => map_primitive_schema v text

/-- `_map_object_schema`'s loop body. -/
def mapObjectEntries : List (String × PyVal) → String → List (String × PyVal)
  | [], _ => []
  | (k, v) :: rest, text => (k, map_schema_to_data v text) :: mapObjectEntries rest text

end

/-! ## Theorems: mapper shape invariant (claim C1) -/

mutual

/-- The claim's property read literally: the result carries exactly the
schema's key set at every nesting level, including inside arrays (each
array item is compared against the array's item schema). -/
def sameKeysDeep : PyVal → PyVal → Bool
  | PyVal.dict se, r =>
      (match r with
       | PyVal.dict re => pyKeys se == pyKeys re && sameKeysEntries se re
       | _ => false)
  | PyVal.list ss, r =>
      (match r with
       | PyVal.list rs =>
           (match ss with
            | [] => true
            | itemS :: _ => sameKeysItems itemS rs)
       | _ => false)
  | _, _ => true

def sameKeysEntries : List (String × PyVal) → List (String × PyVal) → Bool
  | [], [] => true
  | (_, v1) :: r1, (_, v2) :: r2 => sameKeysDeep v1 v2 && sameKeysEntries r1 r2
  | _, _ => false

def sameKeysItems (itemS : PyVal) : List PyVal → Bool
  | [] => true
  | r :: rest => sameKeysDeep itemS r && sameKeysItems itemS rest

end

mutual

/-- The shape property the mapper really guarantees: same keys at every
object nesting level reached outside arrays, and arrays map to arrays. -/
def mirrorsShape : PyVal → PyVal → Bool
  | PyVal.dict se, r =>
      (match r with
       | PyVal.dict re => pyKeys se == pyKeys re && mirrorsEntries se re
       | _ => false)
  | PyVal.list _, r => (match r with | PyVal.list _ => true | _ => false)
  | _, _ => true

def mirrorsEntries : List (String × PyVal) → List (String × PyVal) → Bool
  | [], [] => true
  | (_, v1) :: r1, (_, v2) :: r2 => mirrorsShape v1 v2 && mirrorsEntries r1 r2
  | _, _ => false

end

theorem map_array_schema_is_list (xs : List PyVal) (text : String) :
    ∃ ys, map_array_schema xs text = PyVal.list ys := by
  unfold map_array_schema
  cases xs with
  | nil => exact ⟨[], rfl⟩
  | cons itemSchema rest =>
      cases itemSchema with
      | dict entries =>
          simp only
          by_cases h1 :
            determine_extraction_strategy (pyKeys entries) = "ingredients"
          · rw [if_pos h1]
            unfold map_ingredients_to_schema
            by_cases h2 : (extract_ingredient_data text).isEmpty
            · exact ⟨[], by rw [if_pos h2]⟩
            · exact ⟨_, by rw [if_neg h2]⟩
          · rw [if_neg h1]
            by_cases h2 : determine_extraction_strategy (pyKeys entries) = "hazards"
            · rw [if_pos h2]; exact ⟨_, rfl⟩
            · rw [if_neg h2]; exact ⟨[], rfl⟩
      | none => exact ⟨[], rfl⟩
      | bool b => exact ⟨[], rfl⟩
      | int n => exact ⟨[], rfl⟩
      | num q => exact ⟨[], rfl⟩
      | str s => exact ⟨[], rfl⟩
      | list l => exact ⟨[], rfl⟩

mutual

theorem mirrors_map_val (S : PyVal) (text : String) :
    mirrorsShape S (map_schema_to_data S text) = true := by
  cases S with
  | dict es =>
      rw [map_schema_to_data]
      rw [mirrorsShape]
      apply Bool.and_eq_true_iff.mpr
      refine ⟨?_, mirrors_map_entries es text⟩
      have : pyKeys (mapObjectEntries es text) = pyKeys es := by
        induction es with
        | nil => rfl
        | cons e rest ih =>
            obtain ⟨k, v⟩ := e
            simp [mapObjectEntries, pyKeys] at ih ⊢
            exact ih
      simp [this]
  | list xs =>
      rw [map_schema_to_data]
      obtain ⟨ys, hy⟩ := map_array_schema_is_list xs text
      rw [hy, mirrorsShape]
  | none => rfl
  | bool b => rfl
  | int n => rfl
  | num q => rfl
  | str s =>
      simp only [map_schema_to_data]
      cases map_primitive_schema (PyVal.str s) text <;> rfl

theorem mirrors_map_entries (es : List (String × PyVal)) (text : String) :
    mirrorsEntries es (mapObjectEntries es text) = true := by
  cases es with
  | nil => rfl
  | cons e rest =>
      obtain ⟨k, v⟩ := e
      rw [mapObjectEntries, mirrorsEntries]
      exact Bool.and_eq_true_iff.mpr
        ⟨mirrors_map_val v text, mirrors_map_entries rest text⟩

end

/-- Counterexample for C1 as stated: an array-of-objects schema routed to
the hazards strategy yields a flat list of strings, so the result does not
carry the item schema's key set inside the array. -/
theorem c1_counterexample :
    sameKeysDeep
      (PyVal.dict [("hazards", PyVal.list [PyVal.dict [("statement", PyVal.str "string")]])])
      (map_schema_to_data
        (PyVal.dict [("hazards", PyVal.list [PyVal.dict [("statement", PyVal.str "string")]])])
        "Causes severe skin burns") = false := by
  rfl

/-- Amended C1: the mapper's result mirrors the schema's key set at every
object nesting level outside arrays, and arrays map to arrays; items built
by the ingredients strategy do mirror the item schema's keys, but
hazard-strategy arrays are flat string lists.  Mapping the empty schema
over any text returns the empty object. -/
theorem c1_shape_amended :
    (∀ (S : PyVal) (text : String),
      mirrorsShape S (map_schema_to_data S text) = true) ∧
    (∀ (ings : List PyVal) (schemaItem : List (String × PyVal)),
      (match map_ingredients_to_schema ings schemaItem with
        | PyVal.list items => items.all
            (fun it => match it with
              | PyVal.dict d => pyKeys d == pyKeys schemaItem
              | _ => false)
        | _ => false) = true) ∧
    (∀ text : String, map_schema_to_data (PyVal.dict []) text = PyVal.dict []) := by
  refine ⟨mirrors_map_val, ?_, fun text => rfl⟩
  intro ings schemaItem
  unfold map_ingredients_to_schema
  by_cases h : ings.isEmpty
  · rw [if_pos h]; rfl
  · rw [if_neg h]
    simp only [List.all_eq_true]
    intro it hit
    obtain ⟨ing, _, rfl⟩ := List.mem_map.mp hit
    simp [pyKeys, List.map_map]

/-! ## `app/dynamic_extractor.py`

External collaborators are explicit parameters: `setOrder` is the process's
`set` iteration order used by `list(set(...))` (deterministic within one
run, salted by `PYTHONHASHSEED` across runs), `ratio` is difflib's
`SequenceMatcher(None, a, b).ratio()`, and `nlpExtract` stands for
`_extract_with_enhanced_nlp` when the optional spaCy model loaded (`nlp` is
`None` — hence `nlpExtract = none` — when the import at module top fails). -/

structure ExtractorEnv : Type where
  setOrder : List String → List String
  ratio : String → String → Rat
  nlpExtract : Option (List String → String → String → Option String)

/-- `[^\n\r]`. -/
def notNlCr (c : Char) : Bool := c ≠ '\n' && c ≠ '\r'

/-- `[:=]`. -/
def colonEq (c : Char) : Bool := c = ':' || c = '='

/-- The variant-building body of `_generate_field_variants`, before the
final `list(set(filter(None, variants)))`. -/
def buildFieldVariants (fieldName : String) : List String :=
  let fn := fieldName.data
  let readable := camelSub ' ' fn
  let v1 :=
    [fieldName] ++
      (if readable ≠ fn then
        [String.mk readable, String.mk (pyLower readable),
         String.mk (pyUpper readable), String.mk (pyTitle readable)]
      else [])
  let v2 := v1 ++
    [String.mk (pyLower fn), String.mk (pyUpper fn),
     String.mk (pyReplaceChar '_' ' ' fn), String.mk (pyReplaceChar '-' ' ' fn),
     String.mk (pyReplaceChar '_' '-' fn), String.mk (pyReplaceChar ' ' '-' fn),
     String.mk (pyLower (camelSub '-' fn)), String.mk (pyLower (camelSub '_' fn))]
  let fl := pyLower fn
  let hasSub (t : String) : Bool := containsSub fl t.data
  let v3 := v2 ++
    (if hasSub "cas" then
      ["CAS-No", "cas-no", "CAS No", "cas no", "CAS Number", "cas number",
       "CASNO", "casno", "CAS_No", "cas_no", "CAS.No", "cas.no"] ++
        (if hasSub "no" || hasSub "number" then
          ["Registration No", "Reg No", "Registry Number", "REACH Registration"]
        else [])
    else [])
  let v4 := v3 ++
    (if (hasSub "chemical" || hasSub "component") && hasSub "name" then
      ["Chemical Name", "chemical name", "CHEMICAL NAME", "Component",
       "component", "COMPONENT", "Component Name", "Substance Name",
       "substance name", "Material Name", "material name"]
    else [])
  let v5 := v4 ++
    (if hasSub "product" && hasSub "name" then
      ["Product Name", "product name", "PRODUCT NAME", "Product",
       "product", "PRODUCT", "Trade Name", "trade name", "Commercial Name"]
    else [])
  let v6 := v5 ++
    (if hasSub "ec" && (hasSub "no" || hasSub "number") then
      ["EC-No", "ec-no", "EC No", "ec no", "EC Number", "ec number",
       "ECNO", "ecno", "EC_No", "ec_no", "European Community Number"]
    else [])
  v6 ++
    (if hasSub "weight" then
      ["Weight %", "weight %", "WEIGHT %", "Weight Percent",
       "Wt %", "wt %", "WT %", "Concentration", "concentration"]
    else [])

/-- `_generate_field_variants`: `list(set(filter(None, variants)))` — the
dedup-and-reorder is the process's set iteration order. -/
def generate_field_variants (env : ExtractorEnv) (fieldName : String) : List String :=
  env.setOrder ((buildFieldVariants fieldName).filter (fun v => v ≠ ""))

/-- `[:\-\s=]` (the separator class of `_clean_extracted_value`). -/
def sepClass (c : Char) : Bool := c = ':' || c = '-' || pyIsSpace c || c = '='

/-- Strip one anchored prefix match of `re`, if any. -/
def stripRePrefix (re : List RElem) (cs : List Char) : List Char :=
  match reMatchAt re cs 0 with
  | Option.some (e, _) => cs.drop e
  | Option.none => cs

/-- Remove the leftmost match of `re`, if any. -/
def removeReMatch (re : List RElem) (cs : List Char) : List Char :=
  match reSearch re cs with
  | Option.some (s, e, _) => cs.take s ++ cs.drop e
  | Option.none => cs

/-- `^\w+\s*:\s*` (label prefix). -/
def labelPrefixRe : List RElem :=
  [rPlus isWordChar, rStar pyIsSpace, rLit ":", rStar pyIsSpace]

/-- `^(of|the|a|an)\s+`, `re.IGNORECASE`. -/
def noiseRe1 : List RElem :=
  [RElem.alt [[rLitCI "of"], [rLitCI "the"], [rLitCI "a"], [rLitCI "an"]],
   rPlus pyIsSpace]

/-- `\s+(sheet|data|information|document)s?$`, `re.IGNORECASE`. -/
def noiseRe2 : List RElem :=
  [rPlus pyIsSpace,
   RElem.alt [[rLitCI "sheet"], [rLitCI "data"], [rLitCI "information"],
              [rLitCI "document"]],
   RElem.cls (fun c => c = 's' || c = 'S') 0 (some 1) false, rEol]

/-- `^(number|no\.?|code)\s+`, `re.IGNORECASE`. -/
def noiseRe3 : List RElem :=
  [RElem.alt [[rLitCI "number"],
              [rLitCI "no", RElem.cls (fun c => c = '.') 0 (some 1) false],
              [rLitCI "code"]],
   rPlus pyIsSpace]

/-- `_clean_extracted_value`. -/
def clean_extracted_value (value : List Char) : List Char :=
  if value.isEmpty then []
  else
    let v1 := value.dropWhile sepClass
    let v2 := dropTrailing sepClass v1
    let v3 := stripRePrefix labelPrefixRe v2
    let v4 := squashWs v3
    let v5 := stripRePrefix noiseRe1 v4
    let v6 := removeReMatch noiseRe2 v5
    let v7 := stripRePrefix noiseRe3 v6
    pyStrip v7

/-- `\b(value|amount|quantity|weight|percentage)\b`, `re.IGNORECASE`. -/
def contextKeywordRe : List RElem :=
  [rWordB,
   RElem.alt [[rLitCI "value"], [rLitCI "amount"], [rLitCI "quantity"],
              [rLitCI "weight"], [rLitCI "percentage"]],
   rWordB]

/-- `\b(title|header|caption|label)\b`, `re.IGNORECASE`. -/
def labelWordRe : List RElem :=
  [rWordB,
   RElem.alt [[rLitCI "title"], [rLitCI "header"], [rLitCI "caption"],
              [rLitCI "label"]],
   rWordB]

/-- `\d{2,7}-\d{2}-\d` (unanchored CAS shape). -/
def casShapeRe : List RElem :=
  [rRep Char.isDigit 2 7, rLit "-", rRep Char.isDigit 2 2, rLit "-",
   rOne Char.isDigit]

/-- `\d{3}-\d{3}-\d` (unanchored EC shape). -/
def ecShapeRe : List RElem :=
  [rRep Char.isDigit 3 3, rLit "-", rRep Char.isDigit 3 3, rLit "-",
   rOne Char.isDigit]

/-- Full match of `^\d+$`. -/
def allDigits1 (l : List Char) : Bool := !l.isEmpty && l.all Char.isDigit

/-- Full match of `^\d+[-\d]*$`: a digit followed by digits and dashes. -/
def digitsDashes (l : List Char) : Bool :=
  match l with
  | [] => false
  | c :: rest => c.isDigit && rest.all (fun d => d.isDigit || d = '-')

def chemicalWords : List String :=
  ["sodium", "hydrogen", "carbonate", "acid", "oxide", "chloride", "sulfate",
   "phosphate", "calcium", "potassium", "magnesium", "aluminum", "iron",
   "copper", "zinc", "nitrogen", "phosphorus", "sulfur", "fluoride",
   "bromide", "iodide", "nitrate", "acetate"]

def headerIndicators : List String :=
  ["component", "ec-no", "cas-no", "weight", "classification", "range",
   "number", "no", "ec", "cas"]

/-- `_score_extraction_context` over (text, match span, group(1)). -/
def score_extraction_context (text : List Char) (mStart mEnd : Nat)
    (grp1 : List Char) (fieldName : String) : Rat :=
  let start := mStart - 100
  let endPos := min text.length (mEnd + 100)
  let context := sliceChars text start endPos
  let ev := pyStrip grp1
  if pyLower ev = pyLower fieldName.data then (1 : Rat) / 10
  else if (headerIndicators.map String.data).contains (pyLower ev) then
    (1 : Rat) / 20
  else if decide (ev.length ≤ 5) && (ev.contains '-' || ev.contains '.') then
    (1 : Rat) / 10
  else
    let score : Rat := 1 / 2
    let score := if (context.take (mStart - start + 10)).contains ':' then
      score + 2 / 10 else score
    let score := if (reSearch contextKeywordRe context).isSome then
      score + 2 / 10 else score
    let score := if decide (3 < ev.length) then score + 1 / 10 else score
    let fl := pyLower fieldName.data
    let score :=
      if containsSub fl "cas".data then
        if (reSearch casShapeRe ev).isSome then score + 4 / 10
        else if allDigits1 ev then score + 1 / 10
        else score
      else if containsSub fl "ec".data &&
          (containsSub fl "no".data || containsSub fl "number".data) then
        if (reSearch ecShapeRe ev).isSome then score + 4 / 10
        else if allDigits1 ev then score + 1 / 10
        else score
      else if containsSub fl "chemical".data || containsSub fl "name".data then
        let score := if !digitsDashes ev then score + 3 / 10 else score
        let score :=
          if chemicalWords.any (fun w => containsSub (pyLower ev) w.data) then
            score + 5 / 10
          else score
        let nl := ev.length
        let score :=
          if decide (15 < nl) then score + 6 / 10
          else if decide (10 < nl) then score + 4 / 10
          else if decide (6 < nl) then score + 2 / 10
          else score
        if decide (nl ≤ 5) then score - 3 / 10 else score
      else score
    let score := if (reSearch labelWordRe context).isSome then
      score - 3 / 10 else score
    let score := if pyEndsWith ev ":".data then score - 4 / 10 else score
    let score := if decide (ev.length ≤ 2) then score - 3 / 10 else score
    max 0 (min 1 score)

/-- `_is_valid_data_candidate`. -/
def is_valid_data_candidate (line : List Char) (fieldVariant : String) : Bool :=
  let ll := pyStrip (pyLower line)
  let fl := pyLower fieldVariant.data
  if (["component", "ec-no", "cas-no", "weight %", "weight", "classification",
       "range", "ec no", "cas no", "reach", "registration", "number", "reg.",
       "european community"].map String.data).contains ll then false
  else if containsSub ll "classification".data ||
      containsSub line "67/548".data || containsSub line "1272/2008".data then
    false
  else if pyStartsWith line "(".data && pyEndsWith line ")".data then false
  else if ["no.", "no", "number", "%", "-", "reg.", "reg"].any
      (fun s => pyEndsWith ll s.data) then false
  else if ll = fl then false
  else if decide (ll.length < 2) then false
  else if (match ll.takeWhile Char.isDigit with
           | [] => false
           | _ => ll.getD (ll.takeWhile Char.isDigit).length ' ' = '.') then false
  else if ll.all (fun c => !isWordChar c && !pyIsSpace c) then false
  else if containsSub fl "chemical".data || containsSub fl "component".data ||
      containsSub fl "name".data then
    hasAlphaRun3 line
  else true
where
  /-- `re.findall(r'[a-zA-Z]{3,}', line)` is non-empty: a run of at least
  three letters exists. -/
  hasAlphaRun3 : List Char → Bool
    | [] => false
    | l@(_ :: rest) => decide (3 ≤ (l.takeWhile Char.isAlpha).length) || hasAlphaRun3 rest

/-- The table-header words skipped when searching data after a header in
`_extract_from_table_structure`. -/
def tableHeaderWords : List String := ["ec-no", "cas-no", "weight", "classification"]

/-- Inner candidate scan (the `for j in range(...)` loop) of
`_extract_from_table_structure` for one header line `i` and one variant. -/
def tableCandidateGo (lines : List (List Char)) (variant : String) (stopJ : Nat) :
    Nat → Nat → Option (List Char)
  | 0, _ => Option.none
  | f + 1, j =>
      if j < stopJ then
        let candidate := pyStrip (lines.getD j [])
        let vl := pyLower variant.data
        let continueScan := tableCandidateGo lines variant stopJ f (j + 1)
        if !candidate.isEmpty && is_valid_data_candidate candidate variant then
          if vl = "cas-no".data || containsSub vl "cas".data then
            match reSearch casShapeRe candidate with
            | Option.some (s, e, _) => some (sliceChars candidate s e)
            | Option.none => continueScan
          else if vl = "ec-no".data ||
              (containsSub vl "ec".data &&
                (containsSub vl "no".data || containsSub vl "number".data)) then
            match reSearch ecShapeRe candidate with
            | Option.some (s, e, _) => some (sliceChars candidate s e)
            | Option.none => continueScan
          else if containsSub vl "chemical".data || containsSub vl "component".data ||
              containsSub vl "name".data then
            if !digitsDashes candidate && decide (3 < candidate.length) &&
                !(["component", "ec-no", "cas-no", "weight"].map String.data).contains
                  (pyLower candidate) then
              let nextLine := lines.getD (j + 1) []
              if j + 1 < lines.length && !(pyStrip nextLine).isEmpty &&
                  !nextLine.any Char.isDigit &&
                  decide (2 < (pyStrip nextLine).length) then
                some (candidate ++ ' ' :: pyStrip nextLine)
              else some candidate
            else continueScan
          else
            if decide (1 < candidate.length) && candidate ≠ variant.data then
              some candidate
            else continueScan
        else continueScan
      else Option.none

/-- Header-line scan (the `for i, line in enumerate(lines)` loop) of
`_extract_from_table_structure` for one variant. -/
def tableHeaderGo (lines : List (List Char)) (variant : String) :
    Nat → Nat → Option (List Char)
  | 0, _ => Option.none
  | f + 1, i =>
      if i < lines.length then
        let line := lines.getD i []
        let lineLower := pyStrip (pyLower line)
        let vl := pyLower variant.data
        if containsSub lineLower vl &&
            decide (lineLower.length ≤ vl.length + 10) &&
            !line.any colonEq then
          let startSearch :=
            if i + 1 < lines.length &&
                tableHeaderWords.any
                  (fun h => containsSub (pyLower (lines.getD (i + 1) [])) h.data) then
              i + 2
            else i + 1
          match tableCandidateGo lines variant (min (i + 15) lines.length)
              (lines.length + 1) startSearch with
          | Option.some v => Option.some v
          | Option.none => tableHeaderGo lines variant f (i + 1)
        else tableHeaderGo lines variant f (i + 1)
      else Option.none

/-- `_extract_from_table_structure`. -/
def extract_from_table_structure (fieldVariants : List String) (text : List Char) :
    Option (List Char) :=
  let lines := pySplitLines text
  fieldVariants.findSome? fun variant =>
    tableHeaderGo lines variant (lines.length + 1) 0

/-- The six patterns of `_extract_with_optimized_patterns` for one escaped
variant, compiled with `re.IGNORECASE | re.MULTILINE`, in priority order. -/
def optimizedPatterns (v : String) : List (List RElem) :=
  [[rWordB, rLitCI v, rStar pyIsSpace, rOne colonEq, rStar pyIsSpace,
    RElem.openG, rPlus notNlCr, RElem.closeG],
   [rBolM, rLitCI v, rStar pyIsSpace, rOne colonEq, rStar pyIsSpace,
    RElem.openG, rPlus notNlCr, RElem.closeG],
   [rWordB, rLitCI v, rPlus pyIsSpace,
    RElem.openG, rPlusL notNlCr, RElem.closeG, rLookNlTabEnd],
   [rLitCI v, rStar pyIsSpace, rOne (fun c => c = '|' || c = '\t'),
    rStar pyIsSpace, RElem.openG,
    rPlus (fun c => c ≠ '\n' && c ≠ '\r' && c ≠ '|'), RElem.closeG],
   [rBolM, rLitCI v, rStar pyIsSpace, rEolM, rLit "\n", rStar pyIsSpace,
    RElem.openG, rPlus notNl, RElem.closeG],
   [rLitCI v, rStar (fun c => c = ':' || c = '-' || pyIsSpace c),
    RElem.openG, rPlus (fun c => c ≠ '\n' && c ≠ '\r' && c ≠ '.' && c ≠ ';' && c ≠ ','),
    RElem.closeG]]

/-- Scan one pattern's matches, returning the first cleaned value whose
context score clears the 0.5 threshold. -/
def scanPatternMatches (text : List Char) (variant : String)
    (ms : List (Nat × Nat × List Nat)) : Option (List Char) :=
  ms.findSome? fun t =>
    let value := clean_extracted_value ((groupSlice text t.2.2 1).getD [])
    if !value.isEmpty && decide (1 < (pyStrip value).length) then
      if (1 : Rat) / 2 < score_extraction_context text t.1 t.2.1
          ((groupSlice text t.2.2 1).getD []) variant then
        some value
      else Option.none
    else Option.none

/-- `_extract_with_optimized_patterns`. -/
def extract_with_optimized_patterns (fieldVariants : List String)
    (text : List Char) : Option (List Char) :=
  let tableValue := extract_from_table_structure fieldVariants text
  match tableValue with
  | Option.some v =>
      if !v.isEmpty then Option.some v
      else fieldVariants.findSome? fun variant =>
        (optimizedPatterns variant).findSome? fun pat =>
          scanPatternMatches text variant (reFindIter pat text)
  | Option.none =>
      fieldVariants.findSome? fun variant =>
        (optimizedPatterns variant).findSome? fun pat =>
          scanPatternMatches text variant (reFindIter pat text)

/-- `_extract_value_from_fuzzy_line`: split on the first of `: = - | \t`
present, return the cleaned trailing part when the leading part is similar
enough to the field name. -/
def extract_value_from_fuzzy_line (env : ExtractorEnv) (line : List Char)
    (fieldName : String) : Option (List Char) :=
  [':', '=', '-', '|', '\t'].findSome? fun sep =>
    if line.contains sep then
      match splitFirst sep line with
      | Option.some (a, b) =>
          let labelPart := pyStrip a
          let valuePart := pyStrip b
          let sim := env.ratio (String.mk (pyLower fieldName.data))
            (String.mk (pyLower labelPart))
          if (6 : Rat) / 10 < sim && !valuePart.isEmpty then
            some (clean_extracted_value valuePart)
          else Option.none
      | Option.none => Option.none
    else Option.none

/-- `_extract_with_fuzzy_matching`: best similarity above 0.6 over
(line, variant) pairs, in scan order. -/
def extract_with_fuzzy_matching (env : ExtractorEnv) (fieldVariants : List String)
    (text : List Char) : Option (List Char) :=
  let lines := pySplitLines text
  (lines.foldl
    (fun (st : Option (List Char) × Rat) line =>
      let lc := pyStrip line
      if decide (lc.length < 3) then st
      else
        fieldVariants.foldl
          (fun (st : Option (List Char) × Rat) variant =>
            let sim := env.ratio (String.mk (pyLower variant.data))
              (String.mk (pyLower lc))
            if st.2 < sim && (6 : Rat) / 10 < sim then
              match extract_value_from_fuzzy_line env lc variant with
              | Option.some v => (Option.some v, sim)
              | Option.none => st
            else st)
          st)
    (Option.none, 0)).1

/-- `{escaped variant}\s*[:=\-]` (the separator-bonus regex inside
`_find_relevant_text_sections`; both sides already lowercased). -/
def variantSepRe (vl : List Char) : List RElem :=
  [RElem.lit vl false, rStar pyIsSpace, rOne (fun c => c = ':' || c = '=' || c = '-')]

/-- Stable descending insertion by score (Python `list.sort(key=..., reverse=True)`
is stable: equal scores keep their first-seen order). -/
def insertDescBy (x : Nat × Rat × List Char) :
    List (Nat × Rat × List Char) → List (Nat × Rat × List Char)
  | [] => [x]
  | y :: rest => if x.2.1 ≤ y.2.1 then y :: insertDescBy x rest else x :: y :: rest

def sortDescBy (l : List (Nat × Rat × List Char)) : List (Nat × Rat × List Char) :=
  l.foldr insertDescBy []

/-- `_find_relevant_text_sections`. -/
def find_relevant_text_sections (env : ExtractorEnv) (fieldName : String)
    (text : List Char) (maxChars : Nat) : List Char :=
  let variants := generate_field_variants env fieldName
  let lines := pySplitLines text
  let scored := (lines.enum.filterMap fun p =>
    let i := p.1
    let line := p.2
    let ll := pyLower line
    let maxScore := variants.foldl
      (fun (m : Rat) variant =>
        let vl := pyLower variant.data
        if containsSub ll vl then
          let score : Rat := 1
          let score := if pyStartsWith (pyStrip ll) vl then score + 2 / 10 else score
          let score := if (reSearch (variantSepRe vl) ll).isSome then
            score + 3 / 10 else score
          max m score
        else
          let sim := env.ratio (String.mk vl) (String.mk ll)
          if (7 : Rat) / 10 < sim then max m (sim * 8 / 10) else m)
      0
    if (1 : Rat) / 2 < maxScore then some (i, maxScore, line) else Option.none)
  let ranked := sortDescBy scored
  let included := (ranked.take 10).foldl
    (fun (acc : List Nat) t =>
      acc ++ (List.range' (t.1 - 3) (min lines.length (t.1 + 4) - (t.1 - 3))))
    []
  let relevant :=
    if included.isEmpty then text.take maxChars
    else
      let sortedInds := (List.range lines.length).filter fun i => included.contains i
      List.intercalate ['\n'] (sortedInds.map fun i => lines.getD i [])
  relevant.take maxChars

/-- `[\d,.\s]+` (the numeric-run regex of `_convert_to_type`). -/
def numberRunRe : List RElem :=
  [rPlus (fun c => c.isDigit || c = ',' || c = '.' || pyIsSpace c)]

/-- Python `float(s)` for strings over digits and at most one dot, as an
exact rational (the sources only compare/serialize these values, so the
rational stands in for the IEEE value). -/
def pyFloatOfChars (l : List Char) : Option Rat :=
  if l.isEmpty || !l.all (fun c => c.isDigit || c = '.') then Option.none
  else if (l.filter (fun c => c = '.')).length > 1 then Option.none
  else if !l.any Char.isDigit then Option.none
  else
    let intPart := l.takeWhile (fun c => c ≠ '.')
    let fracPart := (l.drop (intPart.length + 1))
    let iv : Nat := intPart.foldl (fun acc c => acc * 10 + digitVal c) 0
    let fv : Nat := fracPart.foldl (fun acc c => acc * 10 + digitVal c) 0
    some ((iv : Rat) + (fv : Rat) / ((10 : Rat) ^ fracPart.length))

/-- `_convert_to_type`. -/
def convert_to_type (value : List Char) (fieldType : String) : PyVal :=
  if value.isEmpty || (pyStrip value).isEmpty then PyVal.none
  else
    let v := pyStrip value
    if fieldType = "number" then
      match reSearch numberRunRe v with
      | Option.some (s, e, _) =>
          let numberStr :=
            pyReplaceChar ',' '.' ((sliceChars v s e).filter (fun c => c ≠ ' '))
          let numberStr :=
            if decide (1 < (numberStr.filter (fun c => c = '.')).length) then
              let parts := splitOnChar '.' numberStr
              (parts.dropLast).foldr (· ++ ·) [] ++ '.' :: parts.getLastD []
            else numberStr
          match pyFloatOfChars numberStr with
          | Option.some q => PyVal.num q
          | Option.none => PyVal.int 0
      | Option.none => PyVal.int 0
    else if fieldType = "boolean" then
      PyVal.bool ((["true", "yes", "1", "on", "enabled", "active"].map
        String.data).contains (pyLower v))
    else PyVal.str (String.mk v)

/-- `extract_field_value`: the strategy cascade (patterns, then the
optional NLP step, then fuzzy matching), converting the first non-empty
hit. -/
def extract_field_value (env : ExtractorEnv) (fieldName : String)
    (text : String) (fieldType : String) : PyVal :=
  let fieldVariants := generate_field_variants env fieldName
  let cs := text.data
  match extract_with_optimized_patterns fieldVariants cs with
  | Option.some v =>
      if !v.isEmpty then convert_to_type v fieldType
      else extractAfterPatterns fieldVariants cs
  | Option.none => extractAfterPatterns fieldVariants cs
where
  extractAfterPatterns (fieldVariants : List String) (cs : List Char) : PyVal :=
    let nlpStep :=
      match env.nlpExtract with
      | Option.some f =>
          match f fieldVariants (String.mk cs) fieldType with
          | Option.some nv => if nv ≠ "" then some nv.data else Option.none
          | Option.none => Option.none
      | Option.none => Option.none
    match nlpStep with
    | Option.some nv => convert_to_type nv fieldType
    | Option.none =>
        match extract_with_fuzzy_matching env fieldVariants cs with
        | Option.some fv =>
            if !fv.isEmpty then convert_to_type fv fieldType else PyVal.none
        | Option.none => PyVal.none

/-- The five list-item patterns of `_extract_simple_array`,
`re.IGNORECASE`. -/
def listItemPatterns : List (List RElem) :=
  [[rOne (fun c => c = '•' || c = '-' || c = '*'), rStar pyIsSpace,
    RElem.openG, rPlus notNlCr, RElem.closeG],
   [rPlus Char.isDigit, rLit ".", rStar pyIsSpace,
    RElem.openG, rPlus notNlCr, RElem.closeG],
   [rOne Char.isAlpha, rLit ")", rStar pyIsSpace,
    RElem.openG, rPlus notNlCr, RElem.closeG],
   [rOne (fun c => c = '|'), rStar pyIsSpace,
    RElem.openG, rPlus (fun c => c ≠ '\n' && c ≠ '\r' && c ≠ '|'), RElem.closeG],
   [rOne (fun c => c = ','), rStar pyIsSpace,
    RElem.openG, rPlus (fun c => c ≠ ',' && c ≠ '\n' && c ≠ '\r'), RElem.closeG]]

/-- `_extract_simple_array`. -/
def extract_simple_array (env : ExtractorEnv) (fieldName : String)
    (text : String) : List String :=
  let relevantText := find_relevant_text_sections env fieldName text.data 10000
  let items := listItemPatterns.foldl
    (fun acc pat =>
      let found := (reFindIter pat relevantText).filterMap fun t =>
        groupSlice relevantText t.2.2 1
      if found.isEmpty then acc
      else
        acc ++ (found.map clean_extracted_value).filterMap fun item =>
          if !item.isEmpty && decide (2 < (pyStrip item).length) then
            some (String.mk item)
          else Option.none)
    []
  (pyDedup items).take 10

/-- `_get_default_value`. -/
def get_default_value (fieldType : String) : PyVal :=
  if fieldType = "number" then PyVal.int 0
  else if fieldType = "boolean" then PyVal.bool false
  else if fieldType = "array" then PyVal.list []
  else if fieldType = "array_of_objects" then PyVal.list []
  else if fieldType = "object" then PyVal.dict []
  else if fieldType = "string" then PyVal.str ""
  else PyVal.str ""

/-- `_identify_data_sections`: group runs of non-blank lines once a field
name has been seen; a run becomes a section when it has at least two
lines. -/
def identify_data_sections (text : List Char) (fieldNames : List String) :
    List (List Char) :=
  let lines := pySplitLines text
  let st := lines.foldl
    (fun (st : List (List Char) × List (List Char)) line =>
      let (sections, current) := st
      let ls := pyStrip line
      if ls.isEmpty then
        if !current.isEmpty && decide (2 ≤ current.length) then
          (sections ++ [List.intercalate ['\n'] current], [])
        else (sections, [])
      else
        let hasField := fieldNames.any fun f =>
          containsSub (pyLower ls) (pyLower f.data)
        if hasField || !current.isEmpty then (sections, current ++ [line])
        else if decide (3 ≤ current.length) then
          (sections ++ [List.intercalate ['\n'] current], [])
        else (sections, current))
    ([], [])
  if !st.2.isEmpty && decide (2 ≤ st.2.length) then
    st.1 ++ [List.intercalate ['\n'] st.2]
  else st.1

/-- Python `str(value)` for the values the extractor produces
(floats rendered only approximately; no theorem depends on this). -/
def pyStrOfVal : PyVal → String
  | PyVal.str s => s
  | PyVal.int n => toString n
  | PyVal.num q => if q.den = 1 then toString q.num ++ ".0" else toString q.num ++ "/" ++ toString q.den
  | PyVal.bool b => if b then "True" else "False"
  | PyVal.none => "None"
  | PyVal.list _ => "[...]"
  | PyVal.dict _ => "\x7b...\x7d"

/-- `\d+\.?\d*\s*%`. -/
def pctNumRe : List RElem :=
  [rPlus Char.isDigit, RElem.cls (fun c => c = '.') 0 (some 1) false,
   rStar Char.isDigit, rStar pyIsSpace, rLit "%"]

/-- `\d{4,}`. -/
def fourDigitsRe : List RElem := [RElem.cls Char.isDigit 4 Option.none false]

/-- `_calculate_value_confidence` (Python `bool` is an `int`, so a `True`
value counts as positive in the number branch). -/
def calculate_value_confidence (env : ExtractorEnv) (value : PyVal)
    (fieldType : String) (context : List Char) (fieldName : String) : Rat :=
  let c0 : Rat := 1 / 2
  let c1 :=
    if fieldType = "number" then
      let pos := match value with
        | PyVal.int n => decide (0 < n)
        | PyVal.num q => decide (0 < q)
        | PyVal.bool b => b
        | _ => false
      let c := if pos then c0 + 3 / 10 else c0
      if (reSearch pctNumRe (pyStrOfVal value).data).isSome then c + 2 / 10 else c
    else if fieldType = "string" then
      let vs := (pyStrOfVal value).data
      let c := if decide (2 < vs.length) then c0 + 2 / 10 else c0
      let c := if (reSearch fourDigitsRe vs).isNone then c + 1 / 10 else c
      if !(["section", "page", "see", "refer"].any
          (fun n => containsSub (pyLower vs) n.data)) then c + 1 / 10 else c
    else c0
  let c2 :=
    if (generate_field_variants env fieldName).any
        (fun v => containsSub (pyLower context) (pyLower v.data)) then
      c1 + 2 / 10
    else c1
  min 1 c2

/-- Position of the first occurrence of `sub` in `hay` (Python `str.find`,
guarded by the caller's `in` check). -/
def findSubGo (hay sub : List Char) : Nat → Nat → Option Nat
  | 0, _ => Option.none
  | f + 1, pos =>
      if sub.isPrefixOf (hay.drop pos) then some pos
      else if pos < hay.length then findSubGo hay sub f (pos + 1)
      else Option.none

def findSub (hay sub : List Char) : Option Nat :=
  findSubGo hay sub (hay.length + 1) 0

/-- Header-line scan of `_extract_table_data`: the first line in which at
least 60% of the fields (via some variant) occur, with column
positions. -/
def headerScanGo (env : ExtractorEnv) (lines : List (List Char))
    (fieldNames : List String) : Nat → Nat → Option (Nat × List (String × Nat))
  | 0, _ => Option.none
  | f + 1, i =>
      if i < lines.length then
        let ll := pyStrip (pyLower (lines.getD i []))
        let temp := fieldNames.filterMap fun field =>
          ((generate_field_variants env field).findSome? fun variant =>
            let vl := pyLower variant.data
            if containsSub ll vl then findSub ll vl else Option.none).map
            fun pos => (field, pos)
        if (6 : Rat) / 10 * fieldNames.length ≤ (temp.length : Rat) then
          some (i, temp)
        else headerScanGo env lines fieldNames f (i + 1)
      else Option.none

def verticalHeaderWords : List String :=
  ["component", "classification", "range", "weight", "ec-no", "cas-no",
   "reach", "registration", "number"]

/-- `re.match(r'^\(\d+.*\)$', line)`: `(`, a digit, anything, final `)`. -/
def parenRefFormat (l : List Char) : Bool :=
  l.head? == some '(' && (l.getD 1 ' ').isDigit &&
    l.getLast? == some ')' && decide (3 ≤ l.length)

/-- The skip-extra-header-lines loop at the top of
`_extract_vertical_table_data`. -/
def verticalSkipGo (lines : List (List Char)) (headerIdx : Nat) :
    Nat → Nat → Nat
  | 0, idx => idx
  | f + 1, idx =>
      if idx < lines.length && idx < headerIdx + 10 then
        let line := pyStrip (lines.getD idx [])
        if !line.isEmpty &&
            !(verticalHeaderWords.any fun w => containsSub (pyLower line) w.data) &&
            !parenRefFormat line then
          idx
        else verticalSkipGo lines headerIdx f (idx + 1)
      else idx

/-- `\b\d{2,7}-\d{2}-\d\b`. -/
def casShapeWordBRe : List RElem := rWordB :: casShapeRe ++ [rWordB]

/-- `\b\d{3}-\d{3}-\d\b`. -/
def ecShapeWordBRe : List RElem := rWordB :: ecShapeRe ++ [rWordB]

/-- Full match of `^\d+[-\d\s%]*$`. -/
def digitsPctFormat (l : List Char) : Bool :=
  match l with
  | [] => false
  | c :: rest =>
      c.isDigit && rest.all fun d => d.isDigit || d = '-' || pyIsSpace d || d = '%'

/-- Add `""` for every field missing from a row. -/
def fillMissingFields (fieldNames : List String)
    (row : List (String × PyVal)) : List (String × PyVal) :=
  fieldNames.foldl
    (fun r f => if (pyLookup r f).isNone then pyInsert r f (PyVal.str "") else r)
    row

/-- Data-row loop of `_extract_vertical_table_data`, carrying the current
row; blank lines flush rows with at least two fields. -/
def verticalRowsGo (lines : List (List Char)) (fieldNames : List String)
    (stopI : Nat) :
    Nat → Nat → List (String × PyVal) → List (List (String × PyVal)) →
      List (List (String × PyVal)) × List (String × PyVal)
  | 0, _, current, rows => (rows, current)
  | f + 1, i, current, rows =>
      if i < stopI then
        let line := pyStrip (lines.getD i [])
        if line.isEmpty then
          if !current.isEmpty && decide (2 ≤ current.length) then
            verticalRowsGo lines fieldNames stopI f (i + 1) []
              (rows ++ [fillMissingFields fieldNames current])
          else verticalRowsGo lines fieldNames stopI f (i + 1) current rows
        else if (reSearch casShapeWordBRe line).isSome then
          let current2 :=
            match fieldNames.find? (fun fl => containsSub (pyLower fl.data) "cas".data) with
            | Option.some casField =>
                match reSearch casShapeWordBRe line with
                | Option.some (s, e, _) =>
                    pyInsert current casField (PyVal.str (String.mk (sliceChars line s e)))
                | Option.none => current
            | Option.none => current
          verticalRowsGo lines fieldNames stopI f (i + 1) current2 rows
        else if (reSearch ecShapeWordBRe line).isSome then
          let current2 :=
            match fieldNames.find? (fun fl => containsSub (pyLower fl.data) "ec".data &&
                (containsSub (pyLower fl.data) "no".data ||
                  containsSub (pyLower fl.data) "number".data)) with
            | Option.some ecField =>
                match reSearch ecShapeWordBRe line with
                | Option.some (s, e, _) =>
                    pyInsert current ecField (PyVal.str (String.mk (sliceChars line s e)))
                | Option.none => current
            | Option.none => current
          verticalRowsGo lines fieldNames stopI f (i + 1) current2 rows
        else if !digitsPctFormat line && decide (3 < line.length) &&
            !(["classification", "reach", "registration", "number"].any
                fun w => containsSub (pyLower line) w.data) then
          let current2 :=
            match fieldNames.find? (fun fl =>
                (["chemical", "component", "substance", "material"].any
                  fun p => containsSub (pyLower fl.data) p.data) &&
                !containsSub (pyLower fl.data) "product".data) with
            | Option.some nameField =>
                let keep :=
                  match pyLookup current nameField with
                  | Option.some (PyVal.str prev) => decide (line.length ≤ prev.data.length)
                  | Option.some _ => false
                  | Option.none => false
                if keep then current
                else pyInsert current nameField (PyVal.str (String.mk line))
            | Option.none => current
          verticalRowsGo lines fieldNames stopI f (i + 1) current2 rows
        else verticalRowsGo lines fieldNames stopI f (i + 1) current rows
      else (rows, current)

/-- `_extract_vertical_table_data` (the `header_indices` argument is unused
in the source too). -/
def extract_vertical_table_data (lines : List (List Char)) (headerIdx : Nat)
    (fieldNames : List String) (headerIndices : List (String × Nat)) :
    List (List (String × PyVal)) :=
  let _ := headerIndices
  let dataStart := verticalSkipGo lines headerIdx (lines.length + 1) (headerIdx + 1)
  let (rows, current) := verticalRowsGo lines fieldNames
    (min (dataStart + 20) lines.length) (lines.length + 21) dataStart [] []
  let rows :=
    if !current.isEmpty && decide (2 ≤ current.length) then
      rows ++ [fillMissingFields fieldNames current]
    else rows
  rows.take 5

/-- Ascending stable insertion by column position (Python `sorted(...,
key=lambda x: x[1])`). -/
def insertAscByPos (x : String × Nat) : List (String × Nat) → List (String × Nat)
  | [] => [x]
  | y :: rest => if y.2 ≤ x.2 then y :: insertAscByPos x rest else x :: y :: rest

def sortAscByPos (l : List (String × Nat)) : List (String × Nat) :=
  l.foldr insertAscByPos []

/-- `_parse_table_row`. -/
def parse_table_row (line : List Char) (headerIndices : List (String × Nat))
    (fieldNames : List String) : List (String × PyVal) :=
  let sepRow := ['\t', '|', ';', ','].findSome? fun sep =>
    if line.contains sep then
      let parts := (splitOnChar sep line).map pyStrip
      if fieldNames.length ≤ parts.length then
        some (fieldNames.enum.foldl
          (fun row p =>
            let i := p.1
            let field := p.2
            if i < parts.length && !(parts.getD i []).isEmpty then
              pyInsert row field
                (PyVal.str (String.mk (clean_extracted_value (parts.getD i []))))
            else row)
          [])
      else Option.none
    else Option.none
  match sepRow with
  | Option.some row => row
  | Option.none =>
      if headerIndices.isEmpty then []
      else
        let sortedFields := sortAscByPos headerIndices
        sortedFields.enum.foldl
          (fun row p =>
            let i := p.1
            let field := p.2.1
            let pos := p.2.2
            let nextPos :=
              match sortedFields.get? (i + 1) with
              | Option.some q => q.2
              | Option.none => line.length
            let value := pyStrip (sliceChars line pos nextPos)
            if !value.isEmpty then
              pyInsert row field
                (PyVal.str (String.mk (clean_extracted_value value)))
            else row)
          []

/-- Data-row loop of `_extract_horizontal_table_data`. -/
def horizontalRowsGo (lines : List (List Char)) (fieldNames : List String)
    (headerIndices : List (String × Nat)) (stopJ : Nat) :
    Nat → Nat → List (List (String × PyVal))
  | 0, _ => []
  | f + 1, j =>
      if j < stopJ then
        let dataLine := pyStrip (lines.getD j [])
        if !dataLine.isEmpty &&
            !(fieldNames.any fun fn =>
              pyStartsWith (pyLower dataLine) (pyLower fn.data)) then
          let rowData := parse_table_row dataLine headerIndices fieldNames
          if !rowData.isEmpty && decide (2 ≤ rowData.length) then
            rowData :: horizontalRowsGo lines fieldNames headerIndices stopJ f (j + 1)
          else horizontalRowsGo lines fieldNames headerIndices stopJ f (j + 1)
        else horizontalRowsGo lines fieldNames headerIndices stopJ f (j + 1)
      else []

/-- `_extract_horizontal_table_data`. -/
def extract_horizontal_table_data (lines : List (List Char)) (headerIdx : Nat)
    (fieldNames : List String) (headerIndices : List (String × Nat)) :
    List (List (String × PyVal)) :=
  (horizontalRowsGo lines fieldNames headerIndices
    (min (headerIdx + 20) lines.length) (lines.length + 21) (headerIdx + 1)).take 15

/-- `_extract_table_data`. -/
def extract_table_data (env : ExtractorEnv) (text : List Char)
    (fieldNames : List String) : List (List (String × PyVal)) :=
  let lines := pySplitLines text
  match headerScanGo env lines fieldNames (lines.length + 1) 0 with
  | Option.none => []
  | Option.some (hIdx, hInds) =>
      let v := extract_vertical_table_data lines hIdx fieldNames hInds
      if !v.isEmpty then v
      else
        let h := extract_horizontal_table_data lines hIdx fieldNames hInds
        if !h.isEmpty then h else []

/-- Python `value != ""` specialized to the extractor's values. -/
def isEmptyStrVal : PyVal → Bool
  | PyVal.str s => s = ""
  | _ => false

/-- Python `value == 0` (note `False == 0` and `0.0 == 0` in Python). -/
def isZeroVal : PyVal → Bool
  | PyVal.int n => n = 0
  | PyVal.num q => q = 0
  | PyVal.bool b => !b
  | _ => false

/-- The `_type` of a field schema, `'string'` when absent
(`field_schema.get('_type', 'string')`). -/
def schemaFieldType (fieldSchema : PyVal) : String :=
  match pyGet fieldSchema "_type" with
  | Option.some (PyVal.str t) => t
  | _ => "string"

/-- `_extract_structured_array`: try tabular extraction, else extract per
field per section with confidence gating; at most 20 rows. -/
def extract_structured_array (env : ExtractorEnv) (text : String)
    (schema : List (String × PyVal)) : List PyVal :=
  let fieldNames := (pyKeys schema).filter fun k => !(pyStartsWith k.data "_".data)
  let tableData := extract_table_data env text.data fieldNames
  if !tableData.isEmpty then tableData.map PyVal.dict
  else
    let sections := identify_data_sections text.data fieldNames
    let results := sections.filterMap fun sect =>
      let st := fieldNames.foldl
        (fun (st : List (String × PyVal) × List (String × Rat)) fieldName =>
          let (row, conf) := st
          let fieldSchema :=
            match pyLookup schema fieldName with
            | Option.some v => v
            | Option.none => PyVal.dict []
          let fieldType := schemaFieldType fieldSchema
          let value := extract_field_value env fieldName (String.mk sect) fieldType
          if (match value with | PyVal.none => false | _ => true) &&
              !isEmptyStrVal value && !isZeroVal value then
            let confidence :=
              calculate_value_confidence env value fieldType sect fieldName
            if (3 : Rat) / 10 < confidence then
              (pyInsert row fieldName value, conf ++ [(fieldName, confidence)])
            else st
          else st)
        ([], [])
      let (row, conf) := st
      if max 2 (fieldNames.length / 3) ≤ row.length then
        let avg : Rat :=
          if conf.isEmpty then 0 else (conf.map (·.2)).sum / (conf.length : Rat)
        if (4 : Rat) / 10 < avg then
          some (PyVal.dict (fieldNames.foldl
            (fun r f =>
              if (pyLookup r f).isNone then
                let fieldSchema :=
                  match pyLookup schema f with
                  | Option.some v => v
                  | Option.none => PyVal.dict []
                pyInsert r f (get_default_value (schemaFieldType fieldSchema))
              else r)
            row))
        else Option.none
      else Option.none
    results.take 20

/-- `extract_array_values`: array-of-objects schemas go through the
structured extractor, plain arrays through the simple list extractor. -/
def extract_array_values (env : ExtractorEnv) (fieldName : String)
    (text : String) (arraySchema : List (String × PyVal)) : List PyVal :=
  if (match pyLookup arraySchema "_type" with
      | Option.some (PyVal.str t) => t == "array_of_objects"
      | _ => false) then
    extract_structured_array env text arraySchema
  else (extract_simple_array env fieldName text).map PyVal.str

mutual

/-- Modelled from the spec: `extract_fields_from_interface` is imported by
`main.py` from `app.dynamic_extractor` but absent from the source tree;
per §4.6 the mapper walks the parsed schema: metadata (`_`-prefixed) keys
are skipped, object nodes recurse, array-of-objects nodes delegate to the
row extractor (§4.5), simple array nodes to list-pattern extraction, and
every other leaf calls the field-value cascade (§4.4), substituting the
type-appropriate default (`_get_default_value`) when the cascade returns
null (§4.4 failure semantics, §3 Result Tree). -/
def extract_fields_from_interface (env : ExtractorEnv) (text : String)
    (schema : PyVal) : PyVal :=
  match schema with
  | PyVal.dict es => PyVal.dict (extractFieldsEntries env text es)
  | _ => PyVal.dict []

/-- Modelled from the spec: the per-entry walk of
`extract_fields_from_interface` (see there). -/
def extractFieldsEntries (env : ExtractorEnv) (text : String) :
    List (String × PyVal) → List (String × PyVal)
  | [] => []
  | (k, v) :: rest =>
      if pyStartsWith k.data "_".data then extractFieldsEntries env text rest
      else
        let mapped :=
          match v with
          | PyVal.dict child =>
              let t := schemaFieldType (PyVal.dict child)
              if t = "object" then
                PyVal.dict (extractFieldsEntries env text child)
              else if t = "array_of_objects" then
                PyVal.list (extract_structured_array env text child)
              else if t = "array" then
                PyVal.list (extract_array_values env k text child)
              else
                match extract_field_value env k text t with
                | PyVal.none => get_default_value t
                | val => val
          | _ => PyVal.none
        (k, mapped) :: extractFieldsEntries env text rest

end

mutual

/-- Well-formed parsed schemas: every non-metadata child is a dict whose
`_type` is one of the parser-produced tags, recursively for objects. -/
def wfEntries : List (String × PyVal) → Bool
  | [] => true
  | (k, v) :: rest =>
      (if pyStartsWith k.data "_".data then true
       else
        match v with
        | PyVal.dict child =>
            (match pyLookup child "_type" with
             | Option.some (PyVal.str t) =>
                 if t = "object" then wfEntries child
                 else
                   t = "array_of_objects" || t = "string" || t = "number" ||
                     t = "boolean" || t = "array"
             | _ => false)
        | _ => false) && wfEntries rest

end

mutual

/-- The default tree the spec promises for a schema when nothing is found:
"" / 0 / false / [] at the leaves, mirroring the schema shape. -/
def specDefaultsEntries : List (String × PyVal) → List (String × PyVal)
  | [] => []
  | (k, v) :: rest =>
      if pyStartsWith k.data "_".data then specDefaultsEntries rest
      else
        let d :=
          match v with
          | PyVal.dict child =>
              let t := schemaFieldType (PyVal.dict child)
              if t = "object" then PyVal.dict (specDefaultsEntries child)
              else if t = "array_of_objects" || t = "array" then PyVal.list []
              else if t = "number" then PyVal.int 0
              else if t = "boolean" then PyVal.bool false
              else PyVal.str ""
          | _ => PyVal.none
        (k, d) :: specDefaultsEntries rest

end

/-! ## Empty-input behaviour of the matcher -/

mutual

/-- Every way of matching this element sequence consumes at least one
character, so it cannot match the empty input. -/
def seqNeedsInput : List RElem → Bool
  | [] => false
  | RElem.cls _ lo _ _ :: rest => if 1 ≤ lo then true else seqNeedsInput rest
  | RElem.lit s _ :: rest => if s.isEmpty then seqNeedsInput rest else true
  | RElem.assertP _ :: rest => seqNeedsInput rest
  | RElem.openG :: rest => seqNeedsInput rest
  | RElem.closeG :: rest => seqNeedsInput rest
  | RElem.alt alts :: rest => altsNeedInput alts || seqNeedsInput rest

def altsNeedInput : List (List RElem) → Bool
  | [] => true
  | a :: rest => seqNeedsInput a && altsNeedInput rest

end

theorem list_findSome?_none {α β : Type} (f : α → Option β) (l : List α)
    (h : ∀ x ∈ l, f x = Option.none) : l.findSome? f = Option.none := by
  induction l with
  | nil => rfl
  | cons x rest ih =>
      rw [List.findSome?_cons]
      rw [h x (List.mem_cons_self x rest)]
      exact ih fun y hy => h y (List.mem_cons_of_mem x hy)

theorem seqNeedsInput_append (xs ys : List RElem) :
    seqNeedsInput (xs ++ ys) = (seqNeedsInput xs || seqNeedsInput ys) := by
  induction xs with
  | nil => simp [seqNeedsInput]
  | cons e rest ih =>
      cases e with
      | cls p lo hi lz =>
          by_cases h : 1 ≤ lo
          · simp [seqNeedsInput, h]
          · simp [seqNeedsInput, h, ih]
      | lit s ci =>
          by_cases h : s.isEmpty
          · simp [seqNeedsInput, h, ih]
          · simp [seqNeedsInput, h]
      | alt alts => simp [seqNeedsInput, ih, Bool.or_assoc]
      | openG => simp [seqNeedsInput, ih]
      | closeG => simp [seqNeedsInput, ih]
      | assertP p => simp [seqNeedsInput, ih]

theorem altsNeedInput_mem (alts : List (List RElem))
    (hall : altsNeedInput alts = true) :
    ∀ a ∈ alts, seqNeedsInput a = true := by
  induction alts with
  | nil => intro a ha; cases ha
  | cons x xs ih =>
      rw [altsNeedInput] at hall
      intro a ha
      rcases List.mem_cons.mp ha with rfl | hmem
      · exact (Bool.and_eq_true_iff.mp hall).1
      · exact ih (Bool.and_eq_true_iff.mp hall).2 a hmem

theorem classRun_nil (p : Char → Bool) (pos : Nat) (hi : Option Nat) :
    classRun p [] pos hi = 0 := by
  unfold classRun
  cases hi <;> simp

theorem matchSeq_nil_of_needs :
    ∀ (fuel : Nat) (re : List RElem) (pos : Nat),
      seqNeedsInput re = true → matchSeq [] fuel re pos = Option.none := by
  intro fuel
  induction fuel with
  | zero => intro re pos _; rfl
  | succ f ih =>
      intro re pos hre
      cases re with
      | nil => simp [seqNeedsInput] at hre
      | cons e rest =>
          cases e with
          | cls p lo hi lz =>
              rw [seqNeedsInput] at hre
              simp only [matchSeq, classRun_nil]
              by_cases h : 1 ≤ lo
              · rw [if_pos (by omega : 0 < lo)]
              · rw [if_neg h] at hre
                have hlo : lo = 0 := by omega
                subst hlo
                rw [if_neg (by omega)]
                apply list_findSome?_none
                intro k hk
                exact ih rest (pos + k) hre
          | lit s ci =>
              rw [seqNeedsInput] at hre
              by_cases h : s.isEmpty
              · rw [if_pos h] at hre
                have hs : s = [] := by
                  cases s with
                  | nil => rfl
                  | cons a b => simp [List.isEmpty] at h
                subst hs
                show (if litPrefix ci [] ([].drop pos) then _ else Option.none) = Option.none
                rw [if_pos (by rfl)]
                exact ih rest (pos + 0) hre
              · have hs : s ≠ [] := by
                  cases s with
                  | nil => simp [List.isEmpty] at h
                  | cons a b => simp
                obtain ⟨a, b, rfl⟩ : ∃ a b, s = a :: b := by
                  cases s with
                  | nil => exact absurd rfl hs
                  | cons a b => exact ⟨a, b, rfl⟩
                show (if litPrefix ci (a :: b) ([].drop pos) then _
                  else Option.none) = Option.none
                have : ([] : List Char).drop pos = [] := by simp
                rw [this]
                rfl
          | assertP p =>
              rw [seqNeedsInput] at hre
              show (if p [] pos then _ else Option.none) = Option.none
              by_cases h : p [] pos
              · rw [if_pos h]; exact ih rest pos hre
              · rw [if_neg h]
          | openG =>
              rw [seqNeedsInput] at hre
              show (matchSeq [] f rest pos).map _ = Option.none
              rw [ih rest pos hre]
              rfl
          | closeG =>
              rw [seqNeedsInput] at hre
              show (matchSeq [] f rest pos).map _ = Option.none
              rw [ih rest pos hre]
              rfl
          | alt alts =>
              rw [seqNeedsInput] at hre
              show alts.findSome? _ = Option.none
              apply list_findSome?_none
              intro a ha
              apply ih (a ++ rest) pos
              rw [seqNeedsInput_append]
              rcases Bool.or_eq_true_iff.mp hre with hall | hrest
              · simp [altsNeedInput_mem alts hall a ha]
              · simp [hrest]

theorem searchGo_nil (re : List RElem) (hre : seqNeedsInput re = true) :
    ∀ (f pos : Nat), searchGo re [] f pos = Option.none := by
  intro f
  induction f with
  | zero => intro pos; rfl
  | succ g ih =>
      intro pos
      show (match reMatchAt re [] pos with
        | Option.some (e, marks) => Option.some (pos, e, marks)
        | Option.none => searchGo re [] g (pos + 1)) = Option.none
      rw [show reMatchAt re [] pos = Option.none from
        matchSeq_nil_of_needs _ re pos hre]
      exact ih (pos + 1)

theorem reSearch_nil (re : List RElem) (hre : seqNeedsInput re = true) :
    reSearch re [] = Option.none := searchGo_nil re hre _ 0

theorem reFindIter_nil (re : List RElem) (hre : seqNeedsInput re = true) :
    reFindIter re [] = [] := by
  show findIterGo re [] 2 0 = []
  unfold findIterGo
  simp [searchGo_nil re hre]

theorem containsSub_nil (sub : List Char) : containsSub [] sub = sub.isEmpty := by
  cases sub <;> rfl

theorem optimizedPatterns_need (v : String) (hv : v ≠ "") :
    ∀ pat ∈ optimizedPatterns v, seqNeedsInput pat = true := by
  have hd : v.data.isEmpty = false := by
    cases hvd : v.data with
    | nil => exact absurd (by cases v; simp at hvd; simp [hvd]) hv
    | cons a b => rfl
  intro pat hpat
  simp only [optimizedPatterns, List.mem_cons, List.not_mem_nil, or_false] at hpat
  rcases hpat with rfl | rfl | rfl | rfl | rfl | rfl <;>
    simp [seqNeedsInput, rLitCI, rWordB, rBolM, rEolM, rLookNlTabEnd, rStar,
      rPlus, rPlusL, rOne, rLit, hd]

theorem listItemPatterns_need :
    listItemPatterns.all (fun p => seqNeedsInput p) = true := by
  simp [listItemPatterns, seqNeedsInput, rOne, rStar, rPlus, rLit]

/-! ## The extractor cascade on empty document text (towards claim C5) -/

theorem generate_field_variants_ne_empty (env : ExtractorEnv)
    (hso : ∀ l x, x ∈ env.setOrder l → x ∈ l) (f : String) :
    ∀ v ∈ generate_field_variants env f, v ≠ "" := by
  intro v hv
  have hm := List.mem_filter.mp (hso _ _ hv)
  simpa using hm.2

theorem pyLower_data_ne_nil {v : String} (hv : v ≠ "") :
    pyLower v.data ≠ [] := by
  intro h
  apply hv
  apply String.ext
  show v.data = ([] : List Char)
  cases hd : v.data with
  | nil => rfl
  | cons a b => rw [hd] at h; simp [pyLower] at h

theorem tableHeaderGo_nil_step (variant : String) (hv : variant ≠ "") :
    tableHeaderGo [[]] variant 2 0 = Option.none := by
  have hcs : containsSub (pyStrip (pyLower ([] : List Char)))
      (pyLower variant.data) = false := by
    rw [show pyStrip (pyLower ([] : List Char)) = [] from rfl, containsSub_nil]
    cases h : pyLower variant.data with
    | nil => exact absurd h (pyLower_data_ne_nil hv)
    | cons a b => rfl
  rw [tableHeaderGo]
  simp only [List.length_cons, List.length_nil, Nat.zero_lt_one, if_true,
    List.getD, hcs, Bool.false_and, Bool.and_eq_true]
  simp [hcs, tableHeaderGo]

theorem extract_from_table_structure_nil (variants : List String)
    (h : ∀ v ∈ variants, v ≠ "") :
    extract_from_table_structure variants [] = Option.none := by
  unfold extract_from_table_structure
  apply list_findSome?_none
  intro v hv
  exact tableHeaderGo_nil_step v (h v hv)

theorem extract_with_fuzzy_matching_nil (env : ExtractorEnv)
    (variants : List String) :
    extract_with_fuzzy_matching env variants [] = Option.none := rfl

theorem extract_with_optimized_patterns_nil (variants : List String)
    (h : ∀ v ∈ variants, v ≠ "") :
    extract_with_optimized_patterns variants [] = Option.none := by
  unfold extract_with_optimized_patterns
  rw [extract_from_table_structure_nil variants h]
  apply list_findSome?_none
  intro v hv
  apply list_findSome?_none
  intro pat hpat
  rw [reFindIter_nil pat (optimizedPatterns_need v (h v hv) pat hpat)]
  rfl

theorem extract_field_value_nil (env : ExtractorEnv)
    (hnlp : env.nlpExtract = Option.none)
    (hso : ∀ l x, x ∈ env.setOrder l → x ∈ l) (f t : String) :
    extract_field_value env f "" t = PyVal.none := by
  have hopt := extract_with_optimized_patterns_nil (generate_field_variants env f)
    (generate_field_variants_ne_empty env hso f)
  have hfuz := extract_with_fuzzy_matching_nil env (generate_field_variants env f)
  have hdata : ("" : String).data = ([] : List Char) := rfl
  unfold extract_field_value extract_field_value.extractAfterPatterns
  simp [hdata, hopt, hfuz, hnlp]

theorem find_relevant_text_sections_nil (env : ExtractorEnv) (f : String)
    (maxChars : Nat) :
    find_relevant_text_sections env f [] maxChars = [] := by
  unfold find_relevant_text_sections
  rw [show pySplitLines ([] : List Char) = [[]] from rfl]
  simp only [List.enum, List.enumFrom, List.filterMap]
  split
  · simp [sortDescBy, insertDescBy, List.take_nil, List.range',
      List.intercalate, List.intersperse]
  · simp [sortDescBy, List.take_nil]


theorem extract_simple_array_nil (env : ExtractorEnv) (f : String) :
    extract_simple_array env f "" = [] := by
  unfold extract_simple_array
  rw [show ("" : String).data = ([] : List Char) from rfl,
    find_relevant_text_sections_nil]
  have hiter : ∀ pat ∈ listItemPatterns, reFindIter pat [] = [] := by
    intro pat hp
    refine reFindIter_nil pat ?_
    have hall := listItemPatterns_need
    rw [List.all_eq_true] at hall
    exact hall pat hp
  have hfold : ∀ (pats : List (List RElem)) (acc : List String),
      (∀ p ∈ pats, reFindIter p [] = []) →
      pats.foldl
        (fun acc pat =>
          let found := (reFindIter pat []).filterMap fun t =>
            groupSlice [] t.2.2 1
          if found.isEmpty then acc
          else
            acc ++ (found.map clean_extracted_value).filterMap fun item =>
              if !item.isEmpty && decide (2 < (pyStrip item).length) then
                some (String.mk item)
              else Option.none)
        acc = acc := by
    intro pats
    induction pats with
    | nil => intro acc _; rfl
    | cons p rest ih =>
        intro acc h
        rw [List.foldl_cons]
        rw [show reFindIter p [] = [] from h p (List.mem_cons_self p rest)]
        exact ih acc fun q hq => h q (List.mem_cons_of_mem p hq)
  simp only [hfold listItemPatterns [] hiter]
  rfl

theorem identify_data_sections_nil (fieldNames : List String) :
    identify_data_sections [] fieldNames = [] := rfl

theorem headerScanGo_none (env : ExtractorEnv)
    (hso : ∀ l x, x ∈ env.setOrder l → x ∈ l) (fieldNames : List String)
    (hne : fieldNames ≠ []) :
    ∀ fuel i, headerScanGo env [[]] fieldNames fuel i = Option.none := by
  have htemp : (fieldNames.filterMap fun field =>
      ((generate_field_variants env field).findSome? fun variant =>
        let vl := pyLower variant.data
        if containsSub (pyStrip (pyLower ([] : List Char))) vl then
          findSub (pyStrip (pyLower ([] : List Char))) vl
        else Option.none).map fun pos => (field, pos)) = [] := by
    apply List.filterMap_eq_nil_iff.mpr
    intro field _
    rw [list_findSome?_none]
    · rfl
    · intro v hv
      have hcs : containsSub (pyStrip (pyLower ([] : List Char)))
          (pyLower v.data) = false := by
        rw [show pyStrip (pyLower ([] : List Char)) = [] from rfl, containsSub_nil]
        cases hvd : pyLower v.data with
        | nil =>
            exact absurd hvd
              (pyLower_data_ne_nil (generate_field_variants_ne_empty env hso field v hv))
        | cons a b => rfl
      simp [hcs]
  intro fuel
  induction fuel with
  | zero => intro i; rfl
  | succ f ih =>
      intro i
      rw [headerScanGo]
      by_cases hi : i < ([[]] : List (List Char)).length
      · rw [if_pos hi]
        have hi0 : i = 0 := by simpa using hi
        subst hi0
        simp only [List.getD_cons_zero, htemp]
        have hcond : ¬ ((6 : Rat) / 10 * fieldNames.length ≤
            (([] : List (String × Nat)).length : Rat)) := by
          simp only [List.length_nil, Nat.cast_zero]
          have h1 : (0 : Rat) < 6 / 10 * fieldNames.length := by
            apply mul_pos (by norm_num)
            exact_mod_cast Nat.pos_of_ne_zero
              (fun h => hne (List.length_eq_zero.mp h))
          linarith
        rw [if_neg hcond]
        exact ih 1
      · rw [if_neg hi]

theorem extract_table_data_nil (env : ExtractorEnv)
    (hso : ∀ l x, x ∈ env.setOrder l → x ∈ l) (fieldNames : List String) :
    extract_table_data env [] fieldNames = [] := by
  by_cases hne : fieldNames = []
  · subst hne; with_unfolding_all rfl
  · unfold extract_table_data
    rw [show pySplitLines ([] : List Char) = [[]] from rfl]
    simp only [headerScanGo_none env hso fieldNames hne]

theorem extract_structured_array_nil (env : ExtractorEnv)
    (hso : ∀ l x, x ∈ env.setOrder l → x ∈ l) (schema : List (String × PyVal)) :
    extract_structured_array env "" schema = [] := by
  unfold extract_structured_array
  rw [show ("" : String).data = ([] : List Char) from rfl]
  simp only [extract_table_data_nil env hso, identify_data_sections_nil]
  rfl

theorem extract_array_values_nil (env : ExtractorEnv)
    (hso : ∀ l x, x ∈ env.setOrder l → x ∈ l) (k : String)
    (arraySchema : List (String × PyVal)) :
    extract_array_values env k "" arraySchema = [] := by
  unfold extract_array_values
  split
  · exact extract_structured_array_nil env hso arraySchema
  · rw [extract_simple_array_nil env k]
    rfl


theorem c5_entries (env : ExtractorEnv)
    (hnlp : env.nlpExtract = Option.none)
    (hso : ∀ l x, x ∈ env.setOrder l → x ∈ l) :
    ∀ (n : Nat) (es : List (String × PyVal)), sizeOf es ≤ n →
      wfEntries es = true →
      extractFieldsEntries env "" es = specDefaultsEntries es := by
  intro n
  induction n with
  | zero =>
      intro es hs _
      exact absurd hs (by cases es <;> simp)
  | succ n ih =>
      intro es hs hw
      cases es with
      | nil => rw [extractFieldsEntries.eq_def, specDefaultsEntries.eq_def]
      | cons hd rest =>
          obtain ⟨k, v⟩ := hd
          rw [wfEntries.eq_def] at hw
          dsimp only at hw
          rw [Bool.and_eq_true] at hw
          obtain ⟨hw1, hw2⟩ := hw
          simp only [List.cons.sizeOf_spec, Prod.mk.sizeOf_spec] at hs
          have hrest : extractFieldsEntries env "" rest = specDefaultsEntries rest :=
            ih rest (by omega) hw2
          rw [extractFieldsEntries.eq_def, specDefaultsEntries.eq_def]
          dsimp only
          by_cases hk : pyStartsWith k.data "_".data
          · simp only [hk, if_true]
            exact hrest
          · rw [if_neg hk] at hw1
            simp only [hk, Bool.false_eq_true, if_false]
            rw [hrest]
            cases v with
            | dict child =>
                dsimp only
                dsimp only at hw1
                simp only [PyVal.dict.sizeOf_spec] at hs
                cases hlt : pyLookup child "_type" with
                | none => rw [hlt] at hw1; simp at hw1
                | some w =>
                    rw [hlt] at hw1
                    cases w with
                    | str t =>
                        dsimp only at hw1
                        have hsf : schemaFieldType (PyVal.dict child) = t := by
                          simp [schemaFieldType, pyGet, hlt]
                        simp only [hsf]
                        by_cases hobj : t = "object"
                        · rw [if_pos hobj] at hw1
                          rw [if_pos hobj, if_pos hobj]
                          rw [ih child (by omega) hw1]
                        · rw [if_neg hobj] at hw1
                          rw [if_neg hobj, if_neg hobj]
                          by_cases haoo : t = "array_of_objects"
                          · rw [if_pos haoo]
                            rw [extract_structured_array_nil env hso child]
                            simp [haoo]
                          · by_cases harr : t = "array"
                            · rw [if_neg haoo, if_pos harr]
                              rw [extract_array_values_nil env hso k child]
                              simp [harr, haoo]
                            · rw [if_neg haoo, if_neg harr]
                              rw [extract_field_value_nil env hnlp hso k t]
                              dsimp only
                              simp only [Bool.or_eq_true, decide_eq_true_eq] at hw1
                              rcases hw1 with ((((h | h) | h) | h) | h)
                              · exact absurd h haoo
                              · subst h; simp [get_default_value]
                              · subst h; simp [get_default_value]
                              · subst h; simp [get_default_value]
                              · exact absurd h harr
                    | none => simp at hw1
                    | bool b => simp at hw1
                    | int i => simp at hw1
                    | num q => simp at hw1
                    | list l => simp at hw1
                    | dict d => simp at hw1
            | none => simp at hw1
            | bool b => simp at hw1
            | int i => simp at hw1
            | num q => simp at hw1
            | str s => simp at hw1
            | list l => simp at hw1

/-- **C5.** On an empty document text, mapping a well-formed parsed schema
raises nothing and yields the default tree: every leaf holds its
type-appropriate default ("" for string, 0 for number, false for boolean,
[] for arrays), because the extraction cascade returns null and the walk
substitutes `_get_default_value` for it. -/
theorem c5_default_tree (env : ExtractorEnv)
    (hnlp : env.nlpExtract = Option.none)
    (hso : ∀ l x, x ∈ env.setOrder l → x ∈ l)
    (es : List (String × PyVal)) (hwf : wfEntries es = true) :
    extract_fields_from_interface env "" (PyVal.dict es) =
      PyVal.dict (specDefaultsEntries es) := by
  rw [extract_fields_from_interface.eq_def]
  dsimp only
  exact congrArg PyVal.dict (c5_entries env hnlp hso (sizeOf es) es le_rfl hwf)

/-- A deterministic extractor environment: Python-set iteration in insertion
order, difflib similarity constantly 0, no spaCy model. -/
def env0 : ExtractorEnv := ⟨id, fun _ _ => 0, Option.none⟩

/-- The spec's example schema `{productName:string, count:number,
flag:boolean, items:array}` as parsed entries. -/
def c5SchemaEntries : List (String × PyVal) :=
  [("productName", PyVal.dict [("_type", PyVal.str "string")]),
   ("count", PyVal.dict [("_type", PyVal.str "number")]),
   ("flag", PyVal.dict [("_type", PyVal.str "boolean")]),
   ("items", PyVal.dict [("_type", PyVal.str "array")])]

theorem c5_default_tree_witness :
    env0.nlpExtract = Option.none ∧ wfEntries c5SchemaEntries = true ∧
    extract_fields_from_interface env0 "" (PyVal.dict c5SchemaEntries) =
      PyVal.dict [("productName", PyVal.str ""), ("count", PyVal.int 0),
        ("flag", PyVal.bool false), ("items", PyVal.list [])] := by
  refine ⟨rfl, by simp [wfEntries, c5SchemaEntries, pyLookup], ?_⟩
  refine (c5_default_tree env0 rfl (fun l x h => h) c5SchemaEntries
    (by simp [wfEntries, c5SchemaEntries, pyLookup])).trans ?_
  simp [specDefaultsEntries, c5SchemaEntries, schemaFieldType, pyGet, pyLookup,
    pyStartsWith]


/-! ## Claim C9: `list(set(...))` ordering nondeterminism -/

/-- One legitimate alternative set-iteration order: some element comes
first, the rest keep their order.  Across Python runs the iteration order
of a `set` of strings varies with `PYTHONHASHSEED`; any duplicate-free
arrangement of the same elements is a possible `list(set(...))` result. -/
def moveFront (x : String) (l : List String) : List String :=
  if x ∈ l then x :: l.erase x else l

/-- Run A: `list(set(...))` happens to keep first-insertion order. -/
def envA : ExtractorEnv := ⟨fun l => pyDedup l, fun _ _ => 0, Option.none⟩

/-- Run B: the same process, but set iteration yields `"CAS No"` first. -/
def envB : ExtractorEnv :=
  ⟨fun l => moveFront "CAS No" (pyDedup l), fun _ _ => 0, Option.none⟩

/-- A document carrying two differently-labelled CAS numbers. -/
def c9text : String := "CAS-No: 7681-52-9\nCAS No: 64-17-5"

/-- **C9.** Mapping is *not* deterministic across runs:
`_generate_field_variants` ends in `list(set(filter(None, variants)))`,
whose order varies with the process hash seed.  Both `envA` and `envB`
iterate the same variant set (their orders are permutations of the
deduplicated variants, shown by the first two conjuncts), yet on the same
document and field the cascade returns `"7681-52-9"` in one run and
`"64-17-5"` in the other, so identical inputs serialize differently. -/
theorem c9_set_order_nondeterminism :
    (∀ l, (envA.setOrder l).Perm (pyDedup l)) ∧
    (∀ l, (envB.setOrder l).Perm (pyDedup l)) ∧
    extract_field_value envA "casNumber" c9text "string" =
      PyVal.str "7681-52-9" ∧
    extract_field_value envB "casNumber" c9text "string" =
      PyVal.str "64-17-5" := by
  refine ⟨fun l => List.Perm.refl _, fun l => ?_, ?_, ?_⟩
  · show (moveFront "CAS No" (pyDedup l)).Perm (pyDedup l)
    unfold moveFront
    split
    · exact (List.perm_cons_erase (by assumption)).symm
    · exact List.Perm.refl _
  · with_unfolding_all rfl
  · with_unfolding_all rfl


/-! ## Claim C8: the `_doc_cache` bound and its eviction discipline -/

/-- The `_doc_cache` step of `_extract_with_enhanced_nlp`: a hit returns
the stored doc and leaves the cache alone; a miss clears the *entire*
cache once it holds `_max_cache_size = 10` entries, then appends the
newly computed doc under its key. -/
def doc_cache_step {α : Type} (cache : List (Nat × α)) (key : Nat)
    (doc : α) : α × List (Nat × α) :=
  match cache.find? (fun e => e.1 == key) with
  | Option.some e => (e.2, cache)
  | Option.none =>
      let cache2 := if 10 ≤ cache.length then [] else cache
      (doc, cache2 ++ [(key, doc)])

/-- The eviction discipline in the spec's words: on overflow drop just
enough of the *oldest* entries, in insertion order, to make room for the
new entry under the same cap of 10. -/
def spec_cache_step {α : Type} (cache : List (Nat × α)) (key : Nat)
    (doc : α) : α × List (Nat × α) :=
  match cache.find? (fun e => e.1 == key) with
  | Option.some e => (e.2, cache)
  | Option.none =>
      let cache2 :=
        if 10 ≤ cache.length then cache.drop (cache.length + 1 - 10)
        else cache
      (doc, cache2 ++ [(key, doc)])

/-- Feed `n` distinct keys (all misses) through the code's cache. -/
def c8run (n : Nat) : List (Nat × Nat) :=
  (List.range n).foldl (fun c k => (doc_cache_step c k k).2) []

/-- The same key sequence through the spec's oldest-entry eviction. -/
def c8specRun (n : Nat) : List (Nat × Nat) :=
  (List.range n).foldl (fun c k => (spec_cache_step c k k).2) []

/-- `max_chars = 30000 if field_type == "number" else 20000`. -/
def nlpMaxChars (fieldType : String) : Nat :=
  if fieldType = "number" then 30000 else 20000

/-- The cache key `hash(text[:1000])`, modelled by the hashed prefix
itself: equal first-1000-character prefixes give equal keys, and the key
ignores everything else about the call — in particular the field. -/
def docKey (text : List Char) : List Char := text.take 1000

/-- The caching section of `_extract_with_enhanced_nlp` with the doc
computation kept: on a miss the doc is
`nlp(_find_relevant_text_sections(field_variants[0], text, max_chars))`
(`nlp` stands for the external spaCy model, a function of the processed
text; `field_variants[0]` raises IndexError on an empty list), the cache
is cleared wholesale once it holds `_max_cache_size = 10` entries, and
the doc is stored under the text-prefix key. -/
def enhanced_nlp_cache_step {α : Type} (env : ExtractorEnv)
    (nlp : List Char → α) (cache : List (List Char × α))
    (fieldVariants : List String) (text : List Char) (fieldType : String) :
    Except String (α × List (List Char × α)) :=
  match cache.find? (fun e => e.1 == docKey text) with
  | Option.some e => Except.ok (e.2, cache)
  | Option.none =>
      match fieldVariants with
      | [] => Except.error "IndexError"
      | v0 :: _ =>
          let doc := nlp (find_relevant_text_sections env v0 text
            (nlpMaxChars fieldType))
          let cache2 := if 10 ≤ cache.length then [] else cache
          Except.ok (doc, cache2 ++ [(docKey text, doc)])

/-- A document whose relevant-text selection differs between the fields
`"alpha"` (a match on the first line selects lines 0–3) and `"beta"` (a
match on the last line selects lines 3–6). -/
def c8text : List Char := "alpha one\nf1\nf2\nf3\nf4\nf5\nbeta two".data

/-- The doc cached by a miss for field `"alpha"` (with `nlp = id`). -/
def c8doc1 : List Char := find_relevant_text_sections env0 "alpha" c8text 20000

/-- The doc a miss for field `"beta"` would compute (with `nlp = id`). -/
def c8doc2 : List Char := find_relevant_text_sections env0 "beta" c8text 20000

set_option maxRecDepth 4000 in
/-- **C8, counterexample.** Two failures of the claim.  Eviction: after
11 distinct misses the code's cache holds a single entry — the 11th
insert wiped keys 1–10 — while the spec's oldest-first eviction would
keep 10 entries and still hold key 9.  Hit/miss identity: the cache key
`hash(text[:1000])` ignores the field, so after field `"alpha"` populates
the cache, a lookup for field `"beta"` on the same text *hits* and
returns alpha's doc (built from lines 0–3), whereas a genuine miss for
`"beta"` computes a different doc (lines 3–6) — a miss does not recompute
what a hit returns. -/
theorem c8_counterexample :
    (c8run 11).length = 1 ∧
    (c8run 11).find? (fun e => e.1 == 9) = Option.none ∧
    (c8specRun 11).length = 10 ∧
    (c8specRun 11).find? (fun e => e.1 == 9) = Option.some (9, 9) ∧
    c8doc1 = "alpha one\nf1\nf2\nf3".data ∧
    c8doc2 = "f3\nf4\nf5\nbeta two".data ∧
    enhanced_nlp_cache_step env0 id [] ["alpha"] c8text "string" =
      Except.ok (c8doc1, [(docKey c8text, c8doc1)]) ∧
    enhanced_nlp_cache_step env0 id [(docKey c8text, c8doc1)] ["beta"]
        c8text "string" =
      Except.ok (c8doc1, [(docKey c8text, c8doc1)]) ∧
    enhanced_nlp_cache_step env0 id [] ["beta"] c8text "string" =
      Except.ok (c8doc2, [(docKey c8text, c8doc2)]) ∧
    (c8doc1 == c8doc2) = false := by
  refine ⟨by decide, by decide, by decide, by decide, ?_, ?_, ?_, ?_, ?_, ?_⟩ <;>
    with_unfolding_all rfl

/-- **C8, amended.** What `_extract_with_enhanced_nlp` actually
guarantees: the cache never exceeds 10 entries; a hit returns the stored
doc unchanged; a miss with room appends; a miss at capacity clears the
whole cache and leaves exactly the new entry — all-at-once flushing, not
oldest-first eviction; and a hit returns whatever doc is stored under the
text-prefix key regardless of the requesting field and field type (last
conjunct), so the stored doc may come from another field's relevant-text
selection and a miss need not recompute an identical result. -/
theorem c8_cache_amended {α : Type} (cache : List (Nat × α)) (key : Nat)
    (doc : α) :
    (cache.length ≤ 10 → ((doc_cache_step cache key doc).2).length ≤ 10) ∧
    (∀ e, cache.find? (fun x => x.1 == key) = Option.some e →
      doc_cache_step cache key doc = (e.2, cache)) ∧
    (cache.find? (fun x => x.1 == key) = Option.none → cache.length < 10 →
      (doc_cache_step cache key doc).2 = cache ++ [(key, doc)]) ∧
    (cache.find? (fun x => x.1 == key) = Option.none → 10 ≤ cache.length →
      (doc_cache_step cache key doc).2 = [(key, doc)]) ∧
    (∀ (env : ExtractorEnv) (nlp : List Char → α)
        (cache2 : List (List Char × α)) (text : List Char)
        (fv : List String) (ft : String) (e : List Char × α),
      cache2.find? (fun x => x.1 == docKey text) = Option.some e →
      enhanced_nlp_cache_step env nlp cache2 fv text ft =
        Except.ok (e.2, cache2)) := by
  refine ⟨?_, ?_, ?_, ?_, ?_⟩
  · intro hlen
    unfold doc_cache_step
    cases hf : cache.find? (fun e => e.1 == key) with
    | some e => simpa using hlen
    | none =>
        dsimp only
        by_cases hc : 10 ≤ cache.length
        · rw [if_pos hc]; simp
        · rw [if_neg hc]; simp; omega
  · intro e hf
    unfold doc_cache_step
    rw [hf]
  · intro hf hlen
    unfold doc_cache_step
    rw [hf]
    dsimp only
    rw [if_neg (by omega)]
  · intro hf hlen
    unfold doc_cache_step
    rw [hf]
    dsimp only
    rw [if_pos hlen]
    rfl
  · intro env nlp cache2 text fv ft e hf
    unfold enhanced_nlp_cache_step
    rw [hf]

theorem c8_cache_amended_witness :
    (doc_cache_step [(0, 0)] 1 (5 : Nat)).2 = [(0, 0), (1, 5)] ∧
    enhanced_nlp_cache_step env0 id [(docKey c8text, c8doc1)] ["beta"]
        c8text "string" = Except.ok (c8doc1, [(docKey c8text, c8doc1)]) :=
  ⟨(c8_cache_amended [(0, 0)] 1 (5 : Nat)).2.2.1 (by decide) (by decide),
   (c8_cache_amended [] 0 ([] : List Char)).2.2.2.2 env0 id
     [(docKey c8text, c8doc1)] c8text ["beta"] "string"
     (docKey c8text, c8doc1) rfl⟩


/-! ## Claim C6: the structured-array row cap -/

theorem extract_vertical_len (lines : List (List Char)) (headerIdx : Nat)
    (fieldNames : List String) (hInds : List (String × Nat)) :
    (extract_vertical_table_data lines headerIdx fieldNames hInds).length ≤ 5 := by
  unfold extract_vertical_table_data
  dsimp only
  split
  · exact List.length_take_le 5 _
  · exact List.length_take_le 5 _

theorem extract_horizontal_len (lines : List (List Char)) (headerIdx : Nat)
    (fieldNames : List String) (hInds : List (String × Nat)) :
    (extract_horizontal_table_data lines headerIdx fieldNames hInds).length ≤ 15 := by
  unfold extract_horizontal_table_data
  exact List.length_take_le 15 _

theorem extract_table_data_len (env : ExtractorEnv) (text : List Char)
    (fieldNames : List String) :
    (extract_table_data env text fieldNames).length ≤ 15 := by
  unfold extract_table_data
  dsimp only
  split
  · simp
  · split
    · exact le_trans (extract_vertical_len _ _ _ _) (by norm_num)
    · split
      · exact extract_horizontal_len _ _ _ _
      · simp

/-- **C6.** For every document text and item schema, the structured
array extractor returns at most 20 rows: tabular extraction is capped at
5 (vertical) or 15 (horizontal) rows, and the per-section fallback at 20. -/
theorem c6_array_cap (env : ExtractorEnv) (text : String)
    (schema : List (String × PyVal)) :
    (extract_structured_array env text schema).length ≤ 20 := by
  unfold extract_structured_array
  dsimp only
  split
  · rw [List.length_map]
    exact le_trans (extract_table_data_len _ _ _) (by norm_num)
  · exact le_trans (List.length_take_le 20 _) (by norm_num)

end PdfSpy
